import Mathlib

/-!
# A verification development for the golox tree-walking Lox interpreter

This file gives a shallow embedding, in Lean 4, of the core of the golox
interpreter (scanner, AST, `for`-desugaring, resolver return rules,
environment chain, and the tree-walking evaluator), together with theorems
that settle the behavioural claims made about it.

Modelling conventions, used throughout:
* Go `float64` numbers are modelled by exact rationals (`GoFloat`: an
  unreduced fraction with a positive denominator, so that every operation
  is a plain integer formula).  None of the properties proved below depends
  on floating-point rounding; every number that appears in a concrete
  program here is a small integer.
* Go maps are modelled by association lists with first-match lookup; an
  insertion prepends (shadowing an older entry), which has the same lookup
  semantics as overwriting.
* Go pointers to mutable shared objects (environments, instances) are
  modelled by indices into arenas kept in an explicit interpreter state;
  pointer identity is index equality.  Stored `*Value` pointers are modelled
  by the pointed-to `Value` (the interpreter never writes through a stored
  value pointer, so the aliasing is unobservable); a `nil` `*Value` — the
  zero value a Go map read yields for an absent key — is modelled by
  `Option.none`, and dereferencing it by a distinct `panicked` outcome.
* The `report` error sink (stderr plus the `hadError` flag) is modelled by
  an explicit list of `(line, message)` pairs.
* Loops over source positions are expressed with an explicit fuel argument;
  the fuel supplied by the wrappers (the source length) provably dominates
  the number of iterations the Go loop performs, because every iteration
  advances the cursor.
* `unicode.IsLetter`/`unicode.IsDigit` are modelled on their ASCII
  fragment; every input considered below is ASCII.
-/

namespace Golox

/-! ## Tokens (src/golox/token.go) -/

/-- Token kinds, one constructor per constant of the `TokenType` enumeration
in `token.go` (same names, same order). -/
inductive TokenType where
  | EOF
  | LeftParen | RightParen | LeftBrace | RightBrace
  | Comma | Dot | Minus | Plus | Semicolon | Slash | Star | Question | Colon
  | Bang | BangEqual | Equal | EqualEqual
  | Greater | GreaterEqual | Less | LessEqual
  | Identifier | String | Number
  | And | Or | If | Else | Class | Super | This | True | False | Fun
  | For | While | Break | Continue | Nil | Print | Return | Var
  deriving DecidableEq, Repr

/-- The exact-rational model of `float64`: an unreduced fraction `num/den`
with `den` positive by construction.  The zero value (the structure
defaults) is `0`. -/
structure GoFloat where
  num : Int := 0
  den : Int := 1
  deriving DecidableEq, Repr

/-- The float64 value of a natural-number literal. -/
def GoFloat.ofNat (n : Nat) : GoFloat :=
  { num := n, den := 1 }

instance (n : Nat) : OfNat GoFloat n := ⟨GoFloat.ofNat n⟩

def GoFloat.add (a b : GoFloat) : GoFloat :=
  { num := a.num * b.den + b.num * a.den, den := a.den * b.den }

def GoFloat.sub (a b : GoFloat) : GoFloat :=
  { num := a.num * b.den - b.num * a.den, den := a.den * b.den }

def GoFloat.mul (a b : GoFloat) : GoFloat :=
  { num := a.num * b.num, den := a.den * b.den }

/-- Division; the sign moves to the numerator to keep the denominator
positive.  (The interpreter only divides after its divide-by-zero check.) -/
def GoFloat.div (a b : GoFloat) : GoFloat :=
  let n := a.num * b.den
  let d := a.den * b.num
  if d < 0 then { num := -n, den := -d } else { num := n, den := d }

def GoFloat.neg (a : GoFloat) : GoFloat :=
  { a with num := -a.num }

/-- Value equality of the fractions — `float64` `==` on the exact model. -/
def GoFloat.beq (a b : GoFloat) : Bool :=
  a.num * b.den == b.num * a.den

/-- Value order — `float64` `<` on the exact model (denominators are
positive). -/
def GoFloat.blt (a b : GoFloat) : Bool :=
  a.num * b.den < b.num * a.den

/-- Value order — `float64` `<=`. -/
def GoFloat.ble (a b : GoFloat) : Bool :=
  a.num * b.den ≤ b.num * a.den

instance : BEq GoFloat := ⟨GoFloat.beq⟩
instance : Add GoFloat := ⟨GoFloat.add⟩
instance : Sub GoFloat := ⟨GoFloat.sub⟩
instance : Mul GoFloat := ⟨GoFloat.mul⟩
instance : Div GoFloat := ⟨GoFloat.div⟩
instance : Neg GoFloat := ⟨GoFloat.neg⟩

/-- `LiteralType` from `token.go`. -/
inductive LiteralType where
  | Nil | Number | String | Bool
  deriving DecidableEq, Repr

/-- `LiteralValue` from `token.go`: a literal payload with a type tag and
one field per payload kind; the defaults are the Go zero values. -/
structure LiteralValue where
  type_ : LiteralType := .Nil
  NumberValue : GoFloat := {}
  StringValue : String := ""
  BoolValue : Bool := false
  deriving DecidableEq, Repr

def NewNilLiteral : LiteralValue := { type_ := .Nil }

def NewNumberLiteral (value : GoFloat) : LiteralValue :=
  { type_ := .Number, NumberValue := value }

def NewStringLiteral (value : String) : LiteralValue :=
  { type_ := .String, StringValue := value }

def NewBoolLiteral (value : Bool) : LiteralValue :=
  { type_ := .Bool, BoolValue := value }

/-- `Token` from `token.go`. -/
structure Token where
  type_ : TokenType
  Lexeme : String := ""
  Literal : LiteralValue := {}
  Line : Nat := 0
  deriving DecidableEq, Repr

/-! ## Scanner (src/golox/scanner.go) -/

/-- The keyword table of `scanner.go` (lines 9–26), verbatim: note that it
contains neither `"break"` nor `"continue"` although the `TokenType`
enumeration has `Break` and `Continue` kinds. -/
def keywords : List (String × TokenType) :=
  [("and", .And), ("or", .Or), ("if", .If), ("else", .Else),
   ("class", .Class), ("super", .Super), ("this", .This),
   ("true", .True), ("false", .False), ("fun", .Fun),
   ("for", .For), ("while", .While), ("nil", .Nil),
   ("print", .Print), ("return", .Return), ("var", .Var)]

/-- The rune `0` that `peek`/`advance` return at end of input. -/
def nulChar : Char := Char.ofNat 0

/-- `Scanner` from `scanner.go`; `errors` models the `report` sink. -/
structure Scanner where
  Tokens : List Token := []
  source : List Char := []
  Start : Nat := 0
  Current : Nat := 0
  Line : Nat := 1
  errors : List (Nat × String) := []
  deriving DecidableEq, Repr

def NewScanner (src : String) : Scanner :=
  { source := src.data, Line := 1 }

def Scanner.isAtEnd (s : Scanner) : Bool :=
  s.source.length ≤ s.Current

def Scanner.peek (s : Scanner) : Char :=
  if s.isAtEnd then nulChar else s.source.getD s.Current nulChar

def Scanner.peekNext (s : Scanner) : Char :=
  if s.source.length ≤ s.Current + 1 then nulChar
  else s.source.getD (s.Current + 1) nulChar

def Scanner.advance (s : Scanner) : Char × Scanner :=
  if s.isAtEnd then (nulChar, s)
  else (s.source.getD s.Current nulChar, { s with Current := s.Current + 1 })

def Scanner.matchChar (s : Scanner) (expected : Char) : Bool × Scanner :=
  if s.isAtEnd then (false, s)
  else if s.source.getD s.Current nulChar ≠ expected then (false, s)
  else (true, { s with Current := s.Current + 1 })

/-- `s.lexeme()`: the source slice from `Start` to `min(len, Current)`. -/
def Scanner.lexeme (s : Scanner) : String :=
  String.mk ((s.source.drop s.Start).take (min s.source.length s.Current - s.Start))

def Scanner.addTokenLiteral (s : Scanner) (tokenType : TokenType)
    (literal : LiteralValue) : Scanner :=
  { s with Tokens := s.Tokens ++
      [{ type_ := tokenType, Lexeme := s.lexeme, Literal := literal, Line := s.Line }] }

def Scanner.addToken (s : Scanner) (tokenType : TokenType) : Scanner :=
  s.addTokenLiteral tokenType {}

/-- `s.error(line, message)`, i.e. `report(line, "", message)`. -/
def Scanner.error (s : Scanner) (line : Nat) (message : String) : Scanner :=
  { s with errors := s.errors ++ [(line, message)] }

/-- `unicode.IsLetter(ch) || ch == '_'` (ASCII fragment). -/
def IsAlpha (ch : Char) : Bool :=
  ch.isAlpha ∨ ch = '_'

/-- `unicode.IsLetter(ch) || ch == '_' || unicode.IsDigit(ch)` (ASCII fragment). -/
def IsAlphaNumeric (ch : Char) : Bool :=
  ch.isAlpha ∨ ch = '_' ∨ ch.isDigit

/-- The loop of `singleComment`: skip until newline or end of input. -/
def Scanner.singleCommentLoop : Nat → Scanner → Scanner
  | 0, s => s
  | fuel + 1, s =>
    let ch := s.peek
    if ch = '\n' ∨ ch = nulChar then s
    else Scanner.singleCommentLoop fuel (s.advance).2

def Scanner.singleComment (s : Scanner) : Scanner :=
  Scanner.singleCommentLoop s.source.length s

/-- The loop of `multiComment`: skip (counting newlines) until `*/` or end. -/
def Scanner.multiCommentLoop : Nat → Scanner → Scanner
  | 0, s => s
  | fuel + 1, s =>
    let ch := s.peek
    if (ch = '*' ∧ s.peekNext = '/') ∨ ch = nulChar then s
    else
      let s := if ch = '\n' then { s with Line := s.Line + 1 } else s
      Scanner.multiCommentLoop fuel (s.advance).2

def Scanner.multiComment (s : Scanner) : Scanner :=
  let s := Scanner.multiCommentLoop s.source.length s
  if s.isAtEnd then
    s.error s.Line ("Unterminated multi-line comment \x27" ++ s.lexeme ++ "\x27")
  else
    (((s.advance).2).advance).2

/-- The loop of `stringLiteral`: consume (counting newlines) until `"` or end. -/
def Scanner.stringLiteralLoop : Nat → Scanner → Scanner
  | 0, s => s
  | fuel + 1, s =>
    let ch := s.peek
    if ch = '"' ∨ ch = nulChar then s
    else
      let s := if ch = '\n' then { s with Line := s.Line + 1 } else s
      Scanner.stringLiteralLoop fuel (s.advance).2

def Scanner.stringLiteral (s : Scanner) : Scanner :=
  let s := Scanner.stringLiteralLoop s.source.length s
  if s.isAtEnd then
    s.error s.Line ("Unterminated string literal \x27" ++ s.lexeme ++ "\x27")
  else
    let s := (s.advance).2
    let value := String.mk ((s.source.drop (s.Start + 1)).take (s.Current - 1 - (s.Start + 1)))
    s.addTokenLiteral .String (NewStringLiteral value)

/-- The digit-consuming loop shared by the integer and fractional parts of
`numberLiteral`. -/
def Scanner.digitLoop : Nat → Scanner → Scanner
  | 0, s => s
  | fuel + 1, s =>
    if s.peek.isDigit then Scanner.digitLoop fuel (s.advance).2 else s

/-- The value of a digit string, as a natural number. -/
def digitsToNat (cs : List Char) : Nat :=
  cs.foldl (fun acc c => acc * 10 + (c.toNat - 48)) 0

/-- `strconv.ParseFloat` on a lexeme of the shape `digits ['.' digits]`,
modelled exactly (no rounding); on such lexemes Go's parse never returns an
error that `numberLiteral` would report. -/
def parseDecimalFloat (cs : List Char) : GoFloat :=
  let intPart := cs.takeWhile Char.isDigit
  let rest := cs.drop intPart.length
  let frac := rest.drop 1
  { num := digitsToNat intPart * 10 ^ frac.length + digitsToNat frac,
    den := 10 ^ frac.length }

def Scanner.numberLiteral (s : Scanner) : Scanner :=
  let s := Scanner.digitLoop s.source.length s
  let s :=
    if s.peek = '.' ∧ s.peekNext.isDigit then
      Scanner.digitLoop s.source.length (s.advance).2
    else s
  s.addTokenLiteral .Number
    (NewNumberLiteral (parseDecimalFloat ((s.source.drop s.Start).take
      (min s.source.length s.Current - s.Start))))

/-- The consuming loop of `identifier`. -/
def Scanner.identifierLoop : Nat → Scanner → Scanner
  | 0, s => s
  | fuel + 1, s =>
    if IsAlphaNumeric s.peek then Scanner.identifierLoop fuel (s.advance).2 else s

/-- `identifier`: consume the identifier, then promote via the keyword table. -/
def Scanner.identifier (s : Scanner) : Scanner :=
  let s := Scanner.identifierLoop s.source.length s
  let text := s.lexeme
  let tokenType :=
    match keywords.lookup text with
    | some t => t
    | none => TokenType.Identifier
  s.addToken tokenType

/-- `scanToken`: scan one token; `false` means end of input was reached. -/
def Scanner.scanToken (s : Scanner) : Bool × Scanner :=
  let (ch, s) := s.advance
  if ch = '(' then (true, s.addToken .LeftParen)
  else if ch = ')' then (true, s.addToken .RightParen)
  else if ch = '{' then (true, s.addToken .LeftBrace)
  else if ch = '}' then (true, s.addToken .RightBrace)
  else if ch = ',' then (true, s.addToken .Comma)
  else if ch = '.' then (true, s.addToken .Dot)
  else if ch = '-' then (true, s.addToken .Minus)
  else if ch = '+' then (true, s.addToken .Plus)
  else if ch = ';' then (true, s.addToken .Semicolon)
  else if ch = '*' then (true, s.addToken .Star)
  else if ch = '/' then
    let (m, s) := s.matchChar '/'
    if m then (true, s.singleComment)
    else
      let (m, s) := s.matchChar '*'
      if m then (true, s.multiComment)
      else (true, s.addToken .Slash)
  else if ch = '!' then
    let (m, s) := s.matchChar '='
    (true, s.addToken (if m then .BangEqual else .Bang))
  else if ch = '=' then
    let (m, s) := s.matchChar '='
    (true, s.addToken (if m then .EqualEqual else .Equal))
  else if ch = '<' then
    let (m, s) := s.matchChar '='
    (true, s.addToken (if m then .LessEqual else .Less))
  else if ch = '>' then
    let (m, s) := s.matchChar '='
    (true, s.addToken (if m then .GreaterEqual else .Greater))
  else if ch = '"' then (true, s.stringLiteral)
  else if ch = ' ' ∨ ch = '\r' ∨ ch = '\t' then (true, s)
  else if ch = '\n' then (true, { s with Line := s.Line + 1 })
  else if ch = nulChar then (false, s)
  else if ch.isDigit then (true, s.numberLiteral)
  else if IsAlpha ch then (true, s.identifier)
  else (true, s.error s.Line ("Unexpected character \x27" ++ String.mk [ch] ++ "\x27"))

/-- The loop of `ScanTokens`. -/
def Scanner.scanTokensLoop : Nat → Scanner → Scanner
  | 0, s => s
  | fuel + 1, s =>
    let s := { s with Start := s.Current }
    let (cont, s) := s.scanToken
    if cont then Scanner.scanTokensLoop fuel s else s

/-- `reset`. -/
def Scanner.reset (s : Scanner) : Scanner :=
  { s with Tokens := [], Start := 0, Current := 0, Line := 1 }

/-- `ScanTokens`: scan the whole source, then append the `EOF` sentinel.
The supplied fuel dominates the iteration count because every `true`
iteration of `scanToken` advances `Current` by at least one. -/
def Scanner.ScanTokens (s : Scanner) : Scanner :=
  let s := s.reset
  let s := Scanner.scanTokensLoop (s.source.length + 1) s
  { s with Tokens := s.Tokens ++ [{ type_ := .EOF, Line := s.Line }] }

/-- Scan a source string from scratch. -/
def scanSource (src : String) : Scanner :=
  (NewScanner src).ScanTokens

/-! ## Abstract syntax

Expressions follow `expression.go` (part_023 snapshot): one constructor per
struct, with the same field names.  The `nid` field on `Variable`, `Assign`,
`This` and `Super` models the node identity (the Go pointer) under which the
resolver records a depth in the interpreter's `Locals` side table.
A `Superclass` clause of a class statement is the embedded
`*VariableExpression` (its node id and name token). -/

inductive Expr where
  | Literal (Value : LiteralValue)
  | Grouping (Expression : Expr)
  | Unary (Operator : Token) (Right : Expr)
  | Binary (Left : Expr) (Operator : Token) (Right : Expr)
  | Logical (Left : Expr) (Operator : Token) (Right : Expr)
  | Ternary (Condition : Expr) (True : Expr) (False : Expr)
  | Variable (nid : Nat) (Name : Token)
  | Assign (nid : Nat) (Name : Token) (Value : Expr)
  | Call (Callee : Expr) (Paren : Token) (Arguments : List Expr)
  | Get (Object : Expr) (Name : Token)
  | Set (Object : Expr) (Name : Token) (Value : Expr)
  | This (nid : Nat) (Keyword : Token)
  | Super (nid : Nat) (Keyword : Token) (Method : Token)

/-- Statements follow `statement.go` plus the `ClassStatement` used by the
interpreter and resolver (name, optional superclass variable expression,
method list).  A `FunctionStatement` is its (name, parameter, body) triple,
packaged below as `FunctionStatement`. -/
inductive Stmt where
  | Expression (e : Expr)
  | Function (Name : Token) (Params : List Token) (Body : List Stmt)
  | Print (e : Expr)
  | Return (Keyword : Token) (Value : Option Expr)
  | Var (Name : Token) (Initializer : Option Expr)
  | Block (Statements : List Stmt)
  | If (Condition : Expr) (Then : Stmt) (Else : Option Stmt)
  | While (Condition : Expr) (Body : Stmt)
  | Break (Keyword : Token)
  | Continue (Keyword : Token)
  | ClassS (Name : Token) (Superclass : Option (Nat × Token))
      (Methods : List (Token × List Token × List Stmt))

/-- The data of a `FunctionStatement` as carried by a `LoxFunction`. -/
structure FunctionStatement where
  Name : Token
  Params : List Token
  Body : List Stmt

/-! ## `for` desugaring (src/golox/parser.go, `forStatement`, lines 178–213)

The token-consumption part of `forStatement` is ordinary recursive descent;
the part below is the construction of the desugared statement from the four
parsed components, translated clause by clause. -/

/-- The desugaring core of `forStatement`. -/
def desugarFor (initializer : Option Stmt) (condition : Option Expr)
    (increment : Option Expr) (body : Stmt) : Stmt :=
  let statement :=
    match increment with
    | some inc => Stmt.Block [body, Stmt.Expression inc]
    | none => body
  let condition :=
    match condition with
    | some c => c
    | none => Expr.Literal (NewBoolLiteral true)
  let statement := Stmt.While condition statement
  match initializer with
  | some ini => Stmt.Block [ini, statement]
  | none => statement

/-! ## Runtime values (src/golox/value.go, final snapshot) -/

/-- `LoxFunction` (part_030, lines 127–138): declaration, closure
environment, initializer flag.  `fid` models the allocation identity of the
Go pointer; it is fresh at every `NewLoxFunction` call and is consulted only
by the (pointer) equality of function values. -/
structure LoxFunction where
  fid : Nat
  Declaration : FunctionStatement
  Closure : Nat
  IsInitializer : Bool

/-- The dynamic callable stored in a function `Value`: a user `LoxFunction`
or one of the two natives from part_013 (`ClockFunction`, `PrintFunction`). -/
inductive CallableV where
  | loxFunction (f : LoxFunction)
  | clockFunction
  | printFunction

/-- `Value` (value.go): the runtime tagged variant.  `ClassV` and
`InstanceV` carry arena indices (pointer identity).  The Go zero value
`Value{}` is `NilV`. -/
inductive Value where
  | NilV
  | NumberV (n : GoFloat)
  | StringV (s : String)
  | BoolV (b : Bool)
  | FunctionV (f : CallableV)
  | ClassV (c : Nat)
  | InstanceV (i : Nat)

/-- The `NumberValue` struct field of a Go `Value` (zero when the tag is not
`ValueTypeNumber`). -/
def Value.NumberValueF : Value → GoFloat
  | .NumberV n => n
  | _ => {}

/-- The `StringValue` struct field. -/
def Value.StringValueF : Value → String
  | .StringV s => s
  | _ => ""

/-- `isTruthy` (final interpreter snapshot): nil and false are falsey,
everything else truthy. -/
def Value.isTruthy : Value → Bool
  | .NilV => false
  | .BoolV b => b
  | _ => true

/-- Go interface equality of two stored callables: same dynamic type and
same allocation.  The two natives are allocated once each. -/
def CallableV.eqGo : CallableV → CallableV → Bool
  | .loxFunction f, .loxFunction g => f.fid == g.fid
  | .clockFunction, .clockFunction => true
  | .printFunction, .printFunction => true
  | _, _ => false

/-- `Value.Equals` (value.go, lines 92–123): structural on primitives,
pointer identity on functions, classes and instances. -/
def Value.Equals : Value → Value → Bool
  | .NilV, .NilV => true
  | .NumberV n, .NumberV m => n == m
  | .StringV a, .StringV b => a == b
  | .BoolV a, .BoolV b => a == b
  | .FunctionV f, .FunctionV g => f.eqGo g
  | .ClassV a, .ClassV b => a == b
  | .InstanceV a, .InstanceV b => a == b
  | _, _ => false

/-! ## Interpreter state: environment, class and instance arenas -/

/-- One environment frame (`environment.go`): a name-to-value map and an
optional enclosing frame. -/
structure EnvData where
  Values : List (String × Value) := []
  Enclosing : Option Nat := none

/-- `LoxClass` (class.go, final snapshot). -/
structure LoxClassData where
  ClassName : String := ""
  Superclass : Option Nat := none
  Methods : List (String × LoxFunction) := []

/-- `LoxInstance` (class.go, final snapshot). -/
structure LoxInstanceData where
  Class : Nat := 0
  Fields : List (String × Value) := []

/-- The interpreter state: the arenas behind environment, class and
instance pointers; the `Locals` side table (node id → depth) written by the
resolver; the current-environment pointer (`i.Environment`, the globals are
frame 0 = `i.Globals`); the stdout lines written by `print`; the function
allocation counter; and the ambient wall clock read by the `clock` native. -/
structure St where
  envs : List EnvData := [{}]
  classes : List LoxClassData := []
  instances : List LoxInstanceData := []
  Locals : List (Nat × Nat) := []
  Environment : Nat := 0
  output : List String := []
  nextFid : Nat := 0
  clockNow : GoFloat := {}

/-- `RuntimeError` (message plus the reported token's line). -/
structure RuntimeErrorData where
  Message : String
  Line : Nat := 0

/-- The error channel of every evaluation step: runtime errors plus the
three control-flow signals (`ReturnError`, `BreakError`, `ContinueError`,
each wrapping a `RuntimeError` as in the source), the `fmt.Errorf` paths for
malformed operator tokens, a Go panic (nil dereference), and the
out-of-fuel artifact of this embedding. -/
inductive EvalErr where
  | RuntimeErrorE (e : RuntimeErrorData)
  | ReturnErrorE (e : RuntimeErrorData) (Value : Option Value)
  | BreakErrorE (e : RuntimeErrorData)
  | ContinueErrorE (e : RuntimeErrorData)
  | GoError (Message : String)
  | Panicked (Message : String)
  | OutOfFuel

def St.envGetD (st : St) (e : Nat) : EnvData :=
  st.envs.getD e {}

def St.setEnv (st : St) (e : Nat) (d : EnvData) : St :=
  { st with envs := st.envs.set e d }

/-- `NewEnvironmentScope`: allocate a fresh frame with the given enclosing
frame; returns its pointer. -/
def St.newEnvironmentScope (st : St) (enclosing : Option Nat) : Nat × St :=
  (st.envs.length, { st with envs := st.envs ++ [{ Enclosing := enclosing }] })

/-- `Environment.Define`: set unconditionally in this frame. -/
def St.envDefine (st : St) (e : Nat) (name : String) (v : Value) : St :=
  let d := st.envGetD e
  st.setEnv e { d with Values := (name, v) :: d.Values }

/-- The loop of `Environment.Assign`: assign where found, else recurse into
the enclosing frame, else report an undefined variable.  The fuel dominates
the chain length (frames only ever enclose older frames). -/
def St.envAssignLoop : Nat → St → Nat → Token → Value → Except EvalErr Unit × St
  | 0, st, _, _, _ => (.error .OutOfFuel, st)
  | fuel + 1, st, e, name, v =>
    let d := st.envGetD e
    if (d.Values.lookup name.Lexeme).isSome then
      (.ok (), st.setEnv e { d with Values := (name.Lexeme, v) :: d.Values })
    else
      match d.Enclosing with
      | some e2 => St.envAssignLoop fuel st e2 name v
      | none =>
        (.error (.RuntimeErrorE
          { Message := "Undefined variable \x27" ++ name.Lexeme ++ "\x27.",
            Line := name.Line }), st)

def St.envAssign (st : St) (e : Nat) (name : Token) (v : Value) :
    Except EvalErr Unit × St :=
  St.envAssignLoop (st.envs.length + 1) st e name v

/-- The loop of `Environment.Get`: read where found, else recurse into the
enclosing frame, else report an undefined variable. -/
def St.envGetLoop : Nat → St → Nat → Token → Except EvalErr Value
  | 0, _, _, _ => .error .OutOfFuel
  | fuel + 1, st, e, name =>
    match (st.envGetD e).Values.lookup name.Lexeme with
    | some v => .ok v
    | none =>
      match (st.envGetD e).Enclosing with
      | some e2 => St.envGetLoop fuel st e2 name
      | none =>
        .error (.RuntimeErrorE
          { Message := "Undefined variable \x27" ++ name.Lexeme ++ "\x27.",
            Line := name.Line })

def St.envGet (st : St) (e : Nat) (name : Token) : Except EvalErr Value :=
  St.envGetLoop (st.envs.length + 1) st e name

/-- `Environment.ancestor`: follow the `Enclosing` pointer `distance` times
with no nil check.  `none` is the nil environment pointer: the Go loop
dereferences it on the next step, and `GetAt`/`AssignAt` dereference it when
they touch `.Values`, so a `none` result stands for the ensuing panic. -/
def St.ancestor (st : St) (e : Nat) : Nat → Option Nat
  | 0 => some e
  | distance + 1 =>
    match (st.envGetD e).Enclosing with
    | some e2 => St.ancestor st e2 distance
    | none => none

/-- The message of a Go nil-pointer dereference panic. -/
def nilPanicMsg : String :=
  "runtime error: invalid memory address or nil pointer dereference"

/-- `Environment.GetAt`: hop `distance` ancestors and read only that frame's
map.  `Except.error` is the Go panic on a too-short chain; `Except.ok none`
is the nil `*Value` that the map read yields for an absent name, returned
with a nil error. -/
def St.GetAt (st : St) (e : Nat) (distance : Nat) (name : String) :
    Except EvalErr (Option Value) :=
  match st.ancestor e distance with
  | some a => .ok ((st.envGetD a).Values.lookup name)
  | none => .error (.Panicked nilPanicMsg)

/-- `Environment.AssignAt`: hop `distance` ancestors and write only that
frame's map. -/
def St.AssignAt (st : St) (e : Nat) (distance : Nat) (name : Token)
    (v : Value) : Except EvalErr Unit × St :=
  match st.ancestor e distance with
  | some a =>
    let d := st.envGetD a
    (.ok (), st.setEnv a { d with Values := (name.Lexeme, v) :: d.Values })
  | none => (.error (.Panicked nilPanicMsg), st)

/-! ## Classes and instances (src/golox/class.go, final snapshot) -/

def St.classGetD (st : St) (c : Nat) : LoxClassData :=
  st.classes.getD c {}

def St.instGetD (st : St) (i : Nat) : LoxInstanceData :=
  st.instances.getD i {}

/-- The loop of `LoxClass.FindMethod`: this class's method table first, then
the superclass chain.  The fuel dominates the chain length (a superclass is
always an older arena entry). -/
def St.findMethodLoop : Nat → St → Nat → String → Option LoxFunction
  | 0, _, _, _ => none
  | fuel + 1, st, c, name =>
    match (st.classGetD c).Methods.lookup name with
    | some method => some method
    | none =>
      match (st.classGetD c).Superclass with
      | some sc => St.findMethodLoop fuel st sc name
      | none => none

def St.FindMethod (st : St) (c : Nat) (name : String) : Option LoxFunction :=
  St.findMethodLoop (st.classes.length + 1) st c name

/-- `LoxClass.Arity`: the arity of `init` if present, else 0. -/
def St.classArity (st : St) (c : Nat) : Nat :=
  match st.FindMethod c "init" with
  | none => 0
  | some initializer => initializer.Declaration.Params.length

/-- `LoxFunction.Bind` (part_030, lines 188–194): wrap the method in a fresh
environment binding `this` to the instance. -/
def St.Bind (st : St) (f : LoxFunction) (inst : Nat) : LoxFunction × St :=
  let (environment, st) := st.newEnvironmentScope (some f.Closure)
  let st := st.envDefine environment "this" (.InstanceV inst)
  let fid := st.nextFid
  ({ fid := fid, Declaration := f.Declaration, Closure := environment,
     IsInitializer := f.IsInitializer },
   { st with nextFid := fid + 1 })

/-- `LoxInstance.Get` (class.go, lines 123–143): fields first, then a method
bound to this instance, else an undefined-property error. -/
def St.instanceGet (st : St) (i : Nat) (name : Token) :
    Except EvalErr Value × St :=
  match (st.instGetD i).Fields.lookup name.Lexeme with
  | some v => (.ok v, st)
  | none =>
    match st.FindMethod (st.instGetD i).Class name.Lexeme with
    | some method =>
      let (bf, st) := st.Bind method i
      (.ok (.FunctionV (.loxFunction bf)), st)
    | none =>
      (.error (.RuntimeErrorE
        { Message := "Undefined property \x27" ++ name.Lexeme ++ "\x27.",
          Line := name.Line }), st)

/-- `LoxInstance.Set`. -/
def St.instanceSet (st : St) (i : Nat) (name : Token) (v : Value) : St :=
  let d := st.instGetD i
  { st with instances :=
      st.instances.set i { d with Fields := (name.Lexeme, v) :: d.Fields } }

/-- `%g` on an integer-valued float prints no decimal point; this model
agrees with `%g` on every number printed by the theorems below (all
integer-valued); a non-integer value prints as a fraction here. -/
def numToString (q : GoFloat) : String :=
  if q.num % q.den == 0 then toString (q.num / q.den)
  else toString q.num ++ "/" ++ toString q.den

/-- `Value.String` (value.go, lines 47–79). -/
def Value.toStringGo (st : St) : Value → String
  | .NilV => "nil"
  | .NumberV n => numToString n
  | .StringV s => s
  | .BoolV b => if b then "true" else "false"
  | .FunctionV (.loxFunction f) => "<fn " ++ f.Declaration.Name.Lexeme ++ ">"
  | .FunctionV _ => "<native fn>"
  | .ClassV c => (st.classGetD c).ClassName
  | .InstanceV i => (st.classGetD (st.instGetD i).Class).ClassName ++ " instance"

/-- `NewValue` (value.go, lines 131–146): literal payload to runtime value. -/
def NewValue (literal : LiteralValue) : Except EvalErr Value :=
  match literal.type_ with
  | .Nil => .ok .NilV
  | .Number => .ok (.NumberV literal.NumberValue)
  | .String => .ok (.StringV literal.StringValue)
  | .Bool => .ok (.BoolV literal.BoolValue)

/-! ## The tree-walking evaluator

This is the final interpreter snapshot (the `Interpreter` with `Locals`,
classes, and `super`, bundled at the end of `parser.go`, together with
`LoxFunction` from part_030 and `class.go`).  Each `Visit` method becomes
the corresponding branch of `evaluate`/`execute`; `i.Environment` is the
`Environment` field of the state; an explicit fuel bounds the recursion
depth (`OutOfFuel` can only arise when the fuel is too small, never in any
theorem below). -/

/-- `lookUpVariable`: a resolver-recorded depth goes through `GetAt`, an
unrecorded name through `Globals.Get` (the globals are frame 0).  The `ok`
payload is the `*Value` the Go function returns (`none` = nil pointer). -/
def St.lookUpVariable (st : St) (name : Token) (nid : Nat) :
    Except EvalErr (Option Value) :=
  match st.Locals.lookup nid with
  | some distance => st.GetAt st.Environment distance name.Lexeme
  | none => (st.envGet 0 name).map some

/-- `checkNumberOperand`. -/
def checkNumberOperand (operator : Token) (v : Value) : Option EvalErr :=
  if v matches .NumberV _ then none
  else some (.RuntimeErrorE
    { Message := "Operand must be a number.", Line := operator.Line })

/-- `checkNumberOperands` (final snapshot, two operands). -/
def checkNumberOperands (operator : Token) (a b : Value) : Option EvalErr :=
  if (a matches .NumberV _) ∧ (b matches .NumberV _) then none
  else some (.RuntimeErrorE
    { Message := "Operands must be numbers.", Line := operator.Line })

/-- The operator switch of `VisitBinaryExpression`, applied once both
operands have been evaluated. -/
def binaryOp (st : St) (operator : Token) (left right : Value) :
    Except EvalErr Value :=
  match operator.type_ with
  | .Comma => .ok right
  | .Greater =>
    match checkNumberOperands operator left right with
    | some e => .error e
    | none => .ok (.BoolV (GoFloat.blt right.NumberValueF left.NumberValueF))
  | .GreaterEqual =>
    match checkNumberOperands operator left right with
    | some e => .error e
    | none => .ok (.BoolV (GoFloat.ble right.NumberValueF left.NumberValueF))
  | .Less =>
    match checkNumberOperands operator left right with
    | some e => .error e
    | none => .ok (.BoolV (GoFloat.blt left.NumberValueF right.NumberValueF))
  | .LessEqual =>
    match checkNumberOperands operator left right with
    | some e => .error e
    | none => .ok (.BoolV (GoFloat.ble left.NumberValueF right.NumberValueF))
  | .BangEqual => .ok (.BoolV (!left.Equals right))
  | .EqualEqual => .ok (.BoolV (left.Equals right))
  | .Minus =>
    match checkNumberOperands operator left right with
    | some e => .error e
    | none => .ok (.NumberV (left.NumberValueF - right.NumberValueF))
  | .Plus =>
    if (left matches .NumberV _) ∧ (right matches .NumberV _) then
      .ok (.NumberV (left.NumberValueF + right.NumberValueF))
    else if left matches .StringV _ then
      if right matches .StringV _ then
        .ok (.StringV (left.StringValueF ++ right.StringValueF))
      else .ok (.StringV (left.StringValueF ++ right.toStringGo st))
    else if right matches .StringV _ then
      .ok (.StringV (left.toStringGo st ++ right.StringValueF))
    else
      .error (.RuntimeErrorE
        { Message := "Operands must be two numbers or two strings.",
          Line := operator.Line })
  | .Slash =>
    match checkNumberOperands operator left right with
    | some e => .error e
    | none =>
      if right.NumberValueF == 0 then
        .error (.RuntimeErrorE
          { Message := "Illegal divide by zero.", Line := operator.Line })
      else .ok (.NumberV (left.NumberValueF / right.NumberValueF))
  | .Star =>
    match checkNumberOperands operator left right with
    | some e => .error e
    | none => .ok (.NumberV (left.NumberValueF * right.NumberValueF))
  | _ => .error (.GoError "unsupported binary operator type")

/-- `Callable.Arity` as dispatched by `VisitCallExpression`: parameter count
for a user function, 0 and 1 for the natives, `LoxClass.Arity` for a class. -/
def callableArity (st : St) : Sum CallableV Nat → Nat
  | .inl (.loxFunction f) => f.Declaration.Params.length
  | .inl .clockFunction => 0
  | .inl .printFunction => 1
  | .inr c => st.classArity c

/-- The parameter-binding loop of `LoxFunction.Call`.  Every call site has
checked the argument count against the arity, which in Go guards the
`arguments[idx]` index. -/
def defineParams (st : St) (environment : Nat) :
    List Token → List Value → St
  | [], _ => st
  | _, [] => st
  | p :: ps, a :: rest =>
    defineParams (st.envDefine environment p.Lexeme a) environment ps rest

/-- The class-construction tail of `VisitClassStatement`, after the
superclass expression (if any) has been evaluated and checked: two-stage
define/assign of the class name, the `super` scope push/pop around method
creation, and a method marked initializer exactly when it is named `init`. -/
def classFinish (st : St) (name : Token) (superclass : Option Nat)
    (methods : List (Token × List Token × List Stmt)) :
    Except EvalErr (Option Value) × St :=
  let st := st.envDefine st.Environment name.Lexeme .NilV
  let st :=
    match superclass with
    | some sc =>
      let (e, st) := st.newEnvironmentScope (some st.Environment)
      let st := { st with Environment := e }
      st.envDefine e "super" (.ClassV sc)
    | none => st
  let build := fun (acc : List (String × LoxFunction) × St) (m : Token × List Token × List Stmt) =>
    let (tbl, st) := acc
    let fid := st.nextFid
    let f : LoxFunction :=
      { fid := fid,
        Declaration := { Name := m.1, Params := m.2.1, Body := m.2.2 },
        Closure := st.Environment,
        IsInitializer := m.1.Lexeme == "init" }
    ((m.1.Lexeme, f) :: tbl, { st with nextFid := fid + 1 })
  let (methodTable, st) := methods.foldl build ([], st)
  let classId := st.classes.length
  let st := { st with classes := st.classes ++
      [({ ClassName := name.Lexeme, Superclass := superclass,
          Methods := methodTable } : LoxClassData)] }
  let st :=
    match superclass with
    | some _ => { st with Environment := (st.envGetD st.Environment).Enclosing.getD 0 }
    | none => st
  let (_, st) := st.envAssign st.Environment name (.ClassV classId)
  (.ok none, st)

mutual

/-- `Interpreter.evaluate`: the expression visitor, one branch per
`Visit*Expression` method of the final interpreter snapshot. -/
def evaluate : Nat → Expr → St → Except EvalErr Value × St
  | 0, _, st => (.error .OutOfFuel, st)
  | fuel + 1, expression, st =>
    match expression with
    | .Literal l => (NewValue l, st)
    | .Grouping e => evaluate fuel e st
    | .Unary operator right =>
      match evaluate fuel right st with
      | (.error e, st) => (.error e, st)
      | (.ok r, st) =>
        match operator.type_ with
        | .Minus =>
          match checkNumberOperand operator r with
          | some e => (.error e, st)
          | none => (.ok (.NumberV (-(r.NumberValueF))), st)
        | .Bang => (.ok (.BoolV (!r.isTruthy)), st)
        | _ => (.error (.GoError "unsupported unary operator type"), st)
    | .Binary left operator right =>
      match evaluate fuel left st with
      | (.error e, st) => (.error e, st)
      | (.ok l, st) =>
        match evaluate fuel right st with
        | (.error e, st) => (.error e, st)
        | (.ok r, st) => (binaryOp st operator l r, st)
    | .Logical left operator right =>
      match evaluate fuel left st with
      | (.error e, st) => (.error e, st)
      | (.ok l, st) =>
        match operator.type_ with
        | .Or => if l.isTruthy then (.ok l, st) else evaluate fuel right st
        | .And => if !l.isTruthy then (.ok l, st) else evaluate fuel right st
        | _ => (.error (.GoError "unsupported logical operator type"), st)
    | .Ternary condition t f =>
      match evaluate fuel condition st with
      | (.error e, st) => (.error e, st)
      | (.ok c, st) =>
        if c.isTruthy then evaluate fuel t st else evaluate fuel f st
    | .Variable nid name =>
      match st.lookUpVariable name nid with
      | .error e => (.error e, st)
      | .ok none => (.error (.Panicked nilPanicMsg), st)
      | .ok (some v) => (.ok v, st)
    | .Assign nid name value =>
      match evaluate fuel value st with
      | (.error e, st) => (.error e, st)
      | (.ok v, st) =>
        match st.Locals.lookup nid with
        | some distance =>
          match st.AssignAt st.Environment distance name v with
          | (.ok _, st) => (.ok v, st)
          | (.error e, st) => (.error e, st)
        | none =>
          match st.envAssign 0 name v with
          | (.ok _, st) => (.ok v, st)
          | (.error e, st) => (.error e, st)
    | .Call callee paren arguments =>
      match evaluate fuel callee st with
      | (.error e, st) => (.error e, st)
      | (.ok calleeV, st) =>
        match calleeV with
        | .FunctionV c => finishCall fuel (.inl c) paren arguments st
        | .ClassV c => finishCall fuel (.inr c) paren arguments st
        | _ =>
          (.error (.RuntimeErrorE
            { Message := "Can only call functions and classes.",
              Line := paren.Line }), st)
    | .Get object name =>
      match evaluate fuel object st with
      | (.error e, st) => (.error e, st)
      | (.ok o, st) =>
        match o with
        | .InstanceV i =>
          match st.instanceGet i name with
          | (.ok v, st) => (.ok v, st)
          | (.error e, st) => (.error e, st)
        | _ =>
          (.error (.RuntimeErrorE
            { Message := "Only instances have properties.",
              Line := name.Line }), st)
    | .Set object name value =>
      match evaluate fuel object st with
      | (.error e, st) => (.error e, st)
      | (.ok o, st) =>
        match o with
        | .InstanceV i =>
          match evaluate fuel value st with
          | (.error e, st) => (.error e, st)
          | (.ok v, st) => (.ok v, st.instanceSet i name v)
        | _ =>
          (.error (.RuntimeErrorE
            { Message := "Only instances have fields.",
              Line := name.Line }), st)
    | .This nid keyword =>
      match st.lookUpVariable keyword nid with
      | .error e => (.error e, st)
      | .ok none => (.error (.Panicked nilPanicMsg), st)
      | .ok (some v) => (.ok v, st)
    | .Super nid keyword method =>
      match st.Locals.lookup nid with
      | some distance =>
        match st.GetAt st.Environment distance "super" with
        | .error e => (.error e, st)
        | .ok superPtr =>
          match st.GetAt st.Environment (distance - 1) "this" with
          | .error e => (.error e, st)
          | .ok objectPtr =>
            match superPtr with
            | some (.ClassV sc) =>
              match st.FindMethod sc method.Lexeme with
              | none =>
                (.error (.RuntimeErrorE
                  { Message := "Undefined property \x27" ++ method.Lexeme ++ "\x27.",
                    Line := method.Line }), st)
              | some m =>
                match objectPtr with
                | some (.InstanceV i) =>
                  let (bf, st) := st.Bind m i
                  (.ok (.FunctionV (.loxFunction bf)), st)
                | _ => (.error (.Panicked nilPanicMsg), st)
            | _ => (.error (.Panicked nilPanicMsg), st)
      | none =>
        (.error (.RuntimeErrorE
          { Message := "Missing superclass.", Line := keyword.Line }), st)

/-- The tail of `VisitCallExpression` once the callee is known callable:
evaluate the arguments left-to-right, check the count against the arity,
dispatch, and turn a nil result pointer into `Value{}`. -/
def finishCall : Nat → Sum CallableV Nat → Token → List Expr → St →
    Except EvalErr Value × St
  | 0, _, _, _, st => (.error .OutOfFuel, st)
  | fuel + 1, callable, paren, arguments, st =>
    match evalArgs fuel arguments st with
    | (.error e, st) => (.error e, st)
    | (.ok args, st) =>
      let arity := callableArity st callable
      if args.length ≠ arity then
        (.error (.RuntimeErrorE
          { Message := "Expected " ++ toString arity ++ " arguments but got " ++
              toString args.length ++ ".",
            Line := paren.Line }), st)
      else
        match callableCall fuel callable args st with
        | (.error e, st) => (.error e, st)
        | (.ok v, st) =>
          (.ok (match v with | none => Value.NilV | some v2 => v2), st)

/-- The argument loop of `VisitCallExpression`. -/
def evalArgs : Nat → List Expr → St → Except EvalErr (List Value) × St
  | 0, _, st => (.error .OutOfFuel, st)
  | _ + 1, [], st => (.ok [], st)
  | fuel + 1, a :: rest, st =>
    match evaluate fuel a st with
    | (.error e, st) => (.error e, st)
    | (.ok v, st) =>
      match evalArgs fuel rest st with
      | (.error e, st) => (.error e, st)
      | (.ok vs, st) => (.ok (v :: vs), st)

/-- `Callable.Call` dispatch: a user function, the two natives, or a class. -/
def callableCall : Nat → Sum CallableV Nat → List Value → St →
    Except EvalErr (Option Value) × St
  | 0, _, _, st => (.error .OutOfFuel, st)
  | fuel + 1, .inl (.loxFunction f), args, st => loxCall fuel f args st
  | _ + 1, .inl .clockFunction, _, st => (.ok (some (.NumberV st.clockNow)), st)
  | _ + 1, .inl .printFunction, args, st =>
    (.ok none, { st with output := st.output ++ [(args.getD 0 .NilV).toStringGo st] })
  | fuel + 1, .inr c, args, st => classCall fuel c args st

/-- The tail of the initializer paths of `LoxFunction.Call` (part_031):
`v, innerErr := f.Closure.GetAt(0, "this")`, return `innerErr` when it is
set, else return `v` with a nil error. -/
def initializerReturn (f : LoxFunction) (st : St) :
    Except EvalErr (Option Value) × St :=
  match st.GetAt f.Closure 0 "this" with
  | .ok v => (.ok v, st)
  | .error e2 => (.error e2, st)

/-- `LoxFunction.Call` (part_031, lines 33–73, the snapshot matching the
two-value `GetAt` of `environment.go`): run the body in a fresh frame
chained to the closure; a `ReturnError` is consumed here; an initializer
yields the closure's `this` on the normal path, on the return path, and
also when the body's `err` is any other error value — control falls
through the `ReturnError` test into the trailing `IsInitializer` block,
which sets `err = nil`, so the error is swallowed. A Go panic unwinds the
stack past all this error handling (`Panicked` propagates), and `OutOfFuel`
is the embedding's fuel artifact, not a Go error value (it propagates). -/
def loxCall : Nat → LoxFunction → List Value → St →
    Except EvalErr (Option Value) × St
  | 0, _, _, st => (.error .OutOfFuel, st)
  | fuel + 1, f, arguments, st =>
    let (environment, st) := st.newEnvironmentScope (some f.Closure)
    let st := defineParams st environment f.Declaration.Params arguments
    match executeBlock fuel f.Declaration.Body environment st with
    | (.ok value, st) =>
      if f.IsInitializer then initializerReturn f st
      else (.ok value, st)
    | (.error e, st) =>
      match e with
      | .ReturnErrorE _ rv =>
        if f.IsInitializer then initializerReturn f st
        else (.ok rv, st)
      | .Panicked m => (.error (.Panicked m), st)
      | .OutOfFuel => (.error .OutOfFuel, st)
      | _ =>
        if f.IsInitializer then initializerReturn f st
        else (.error e, st)

/-- `LoxClass.Call` (class.go, lines 75–86): construct the instance, invoke
a bound `init` if one exists (its result and error are discarded), and
yield the instance. -/
def classCall : Nat → Nat → List Value → St →
    Except EvalErr (Option Value) × St
  | 0, _, _, st => (.error .OutOfFuel, st)
  | fuel + 1, c, arguments, st =>
    let instanceId := st.instances.length
    let st := { st with instances := st.instances ++ [({ Class := c } : LoxInstanceData)] }
    match st.FindMethod c "init" with
    | some initializer =>
      let (bf, st) := st.Bind initializer instanceId
      let (_, st) := loxCall fuel bf arguments st
      (.ok (some (.InstanceV instanceId)), st)
    | none => (.ok (some (.InstanceV instanceId)), st)

/-- `Interpreter.execute`: the statement visitor, one branch per
`Visit*Statement` method of the final interpreter snapshot. -/
def execute : Nat → Stmt → St → Except EvalErr (Option Value) × St
  | 0, _, st => (.error .OutOfFuel, st)
  | fuel + 1, statement, st =>
    match statement with
    | .Expression e =>
      match evaluate fuel e st with
      | (.error er, st) => (.error er, st)
      | (.ok v, st) => (.ok (some v), st)
    | .Function name params body =>
      let fid := st.nextFid
      let st := { st with nextFid := fid + 1 }
      let f : LoxFunction :=
        { fid := fid,
          Declaration := { Name := name, Params := params, Body := body },
          Closure := st.Environment, IsInitializer := false }
      (.ok none, st.envDefine st.Environment name.Lexeme (.FunctionV (.loxFunction f)))
    | .Print e =>
      match evaluate fuel e st with
      | (.error er, st) => (.error er, st)
      | (.ok v, st) => (.ok none, { st with output := st.output ++ [v.toStringGo st] })
    | .Return keyword value =>
      match value with
      | some ve =>
        match evaluate fuel ve st with
        | (.error er, st) => (.error er, st)
        | (.ok v, st) =>
          (.error (.ReturnErrorE
            { Message := "Return only supported in functions.",
              Line := keyword.Line } (some v)), st)
      | none =>
        (.error (.ReturnErrorE
          { Message := "Return only supported in functions.",
            Line := keyword.Line } none), st)
    | .Var name initializer =>
      match initializer with
      | some ie =>
        match evaluate fuel ie st with
        | (.error er, st) => (.error er, st)
        | (.ok v, st) => (.ok (some v), st.envDefine st.Environment name.Lexeme v)
      | none => (.ok (some .NilV), st.envDefine st.Environment name.Lexeme .NilV)
    | .Block statements =>
      let (environment, st) := st.newEnvironmentScope (some st.Environment)
      executeBlock fuel statements environment st
    | .If condition thenB elseB =>
      match evaluate fuel condition st with
      | (.error er, st) => (.error er, st)
      | (.ok c, st) =>
        if c.isTruthy then execute fuel thenB st
        else
          match elseB with
          | some e => execute fuel e st
          | none => (.ok none, st)
    | .While condition body => whileLoop fuel condition body st
    | .Break keyword =>
      (.error (.BreakErrorE
        { Message := "Break only supported in loops.", Line := keyword.Line }), st)
    | .Continue keyword =>
      (.error (.ContinueErrorE
        { Message := "Continue only supported in loops.", Line := keyword.Line }), st)
    | .ClassS name superclass methods =>
      match superclass with
      | some (snid, sname) =>
        match evaluate fuel (.Variable snid sname) st with
        | (.error er, st) => (.error er, st)
        | (.ok sv, st) =>
          match sv with
          | .ClassV sc => classFinish st name (some sc) methods
          | _ =>
            (.error (.RuntimeErrorE
              { Message := "Superclass must be a class.", Line := sname.Line }), st)
      | none => classFinish st name none methods

/-- `executeBlock`: run the statements under the given frame, restoring the
previous frame afterwards (the Go `defer`), also on error. -/
def executeBlock : Nat → List Stmt → Nat → St →
    Except EvalErr (Option Value) × St
  | 0, _, _, st => (.error .OutOfFuel, st)
  | fuel + 1, statements, environment, st =>
    let previous := st.Environment
    let st := { st with Environment := environment }
    match execStmts fuel statements none st with
    | (r, st) => (r, { st with Environment := previous })

/-- The statement loop shared by `executeBlock` and `Interpret`: run each
statement, stop at the first escaping error, and carry the last statement's
result value (the loop variable `value` of the Go code). -/
def execStmts : Nat → List Stmt → Option Value → St →
    Except EvalErr (Option Value) × St
  | 0, _, _, st => (.error .OutOfFuel, st)
  | _ + 1, [], value, st => (.ok value, st)
  | fuel + 1, statement :: rest, _, st =>
    match execute fuel statement st with
    | (.error e, st) => (.error e, st)
    | (.ok v, st) => execStmts fuel rest v st

/-- `VisitWhileStatement`: evaluate the condition each round; a `BreakError`
from the body ends the loop, a `ContinueError` re-enters it, anything else
propagates. -/
def whileLoop : Nat → Expr → Stmt → St → Except EvalErr (Option Value) × St
  | 0, _, _, st => (.error .OutOfFuel, st)
  | fuel + 1, condition, body, st =>
    match evaluate fuel condition st with
    | (.error e, st) => (.error e, st)
    | (.ok c, st) =>
      if !c.isTruthy then (.ok none, st)
      else
        match execute fuel body st with
        | (.ok _, st) => whileLoop fuel condition body st
        | (.error e, st) =>
          match e with
          | .BreakErrorE _ => (.ok none, st)
          | .ContinueErrorE _ => whileLoop fuel condition body st
          | _ => (.error e, st)

end

/-- `NewInterpreter` plus `DefineNativeFunctions` (part_013;
`printIsNative` is false): the globals are frame 0 and hold `clock`. -/
def NewInterpreterState : St :=
  St.envDefine { envs := [{}] } 0 "clock" (.FunctionV .clockFunction)

/-- `Interpreter.Interpret` on a resolved program: run the statements in
order against a fresh interpreter whose `Locals` side table is given. -/
def Interpret (fuel : Nat) (locals : List (Nat × Nat))
    (statements : List Stmt) : Except EvalErr (Option Value) × St :=
  execStmts fuel statements none { NewInterpreterState with Locals := locals }

/-! ## Resolver return rules (src/golox/resolver.go and §4.3)

The `CurrentFunction` threading, the save/restore of `resolveFunction` and
the method loop of `VisitClassStatement` follow `resolver.go`; scope
tracking and depth recording are orthogonal to the return rules and are
omitted here.  The resolver snapshot under `src/` predates initializers:
its `FunctionType` has no initializer tag and its `VisitReturnStatement`
checks only the top-level rule, so the two initializer pieces are modelled
from the spec and marked as such. -/

/-- `FunctionType`: `None`, `Function`, `Method` are the constants of
`resolver.go` lines 5–11.
Modelled from the spec: the final resolver snapshot — the one with §4.3's
function-type tags "(function, method, initializer)" — is not among the
source files, so `FunctionTypeInitializer` is taken from the spec's words. -/
inductive FunctionType where
  | FunctionTypeNone
  | FunctionTypeFunction
  | FunctionTypeMethod
  | FunctionTypeInitializer

/-- The resolver state needed by the return rules: the function-type tag
and the `report` sink. -/
structure ResolverState where
  CurrentFunction : FunctionType := .FunctionTypeNone
  errors : List String := []

/-- `reportError` into the sink. -/
def ResolverState.reportError (r : ResolverState) (message : String) : ResolverState :=
  { r with errors := r.errors ++ [message] }

mutual

/-- The statement walk of the resolver restricted to what reaches a
`return`.  The top-level rule is `VisitReturnStatement` of `resolver.go`
(lines 126–139).
Modelled from the spec: "`return <value>;` inside an initializer method is
a static error" (§4.3 rule 4) gives the second check of the `Return`
branch. -/
def resolveStatement (r : ResolverState) : Stmt → ResolverState
  | .Return _ value =>
    let r :=
      if r.CurrentFunction matches .FunctionTypeNone then
        r.reportError "Can\x27t return from top-level code."
      else r
    if value.isSome ∧ (r.CurrentFunction matches .FunctionTypeInitializer) then
      r.reportError "Can\x27t return a value from an initializer."
    else r
  | .Function _ _ body => resolveFunction r .FunctionTypeFunction body
  | .Block statements => resolveStatements r statements
  | .If _ thenB elseB =>
    let r := resolveStatement r thenB
    match elseB with
    | some e => resolveStatement r e
    | none => r
  | .While _ body => resolveStatement r body
  | .ClassS _ _ methods => resolveMethods r methods
  | _ => r
termination_by s => (sizeOf s, 0)

/-- `resolveStatements`. -/
def resolveStatements (r : ResolverState) : List Stmt → ResolverState
  | [] => r
  | s :: rest => resolveStatements (resolveStatement r s) rest
termination_by l => (sizeOf l, 0)

/-- `resolveFunction`: save `CurrentFunction`, resolve the body under the
given tag, restore. -/
def resolveFunction (r : ResolverState) (functionType : FunctionType)
    (body : List Stmt) : ResolverState :=
  let enclosingFunction := r.CurrentFunction
  let r := resolveStatements { r with CurrentFunction := functionType } body
  { r with CurrentFunction := enclosingFunction }
termination_by (sizeOf body, 1)

/-- The method loop of `VisitClassStatement`.
Modelled from the spec: the tag is the initializer one exactly for a method
named `init` (§4.3 together with "setting `is_initializer` iff the method
name is `init`"); the bundled resolver snapshot tags every method
`FunctionTypeMethod`. -/
def resolveMethods (r : ResolverState) :
    List (Token × List Token × List Stmt) → ResolverState
  | [] => r
  | (name, _, body) :: rest =>
    let declaration :=
      if name.Lexeme == "init" then FunctionType.FunctionTypeInitializer
      else FunctionType.FunctionTypeMethod
    resolveMethods (resolveFunction r declaration body) rest
termination_by ms => (sizeOf ms, 0)

end

mutual

/-- A `return <value>;` occurs in this statement outside any nested
function (descending through blocks, branches and loop bodies, as the
resolver's walk does without changing the function-type tag). -/
def hasValueReturn : Stmt → Bool
  | .Return _ (some _) => true
  | .Block statements => hasValueReturnList statements
  | .If _ thenB elseB =>
    hasValueReturn thenB ||
      (match elseB with
       | some e => hasValueReturn e
       | none => false)
  | .While _ body => hasValueReturn body
  | _ => false

/-- `hasValueReturn` over a statement list. -/
def hasValueReturnList : List Stmt → Bool
  | [] => false
  | s :: rest => hasValueReturn s || hasValueReturnList rest

end

/-! ## The 255-element cap on parameter and argument lists (§4.2)

Modelled from the spec: the parser snapshot that parses function
declarations and call expressions — the place of the cap — is not among the
source files (the bundled parser snapshot predates functions and calls).
§4.2: "both cap parameter count at 255 (same cap for call arguments),
reporting — not aborting — on overflow". -/

/-- Modelled from the spec: the do-while element loop of the missing
argument/parameter parser, folded over the elements it parses.  Parsing the
next element when 255 elements have already been collected reports an error
to the sink; the element is still parsed and kept and the loop continues,
so the list is never truncated and the parse is not aborted. -/
def capLoop {α : Type} (parsed : Nat) : List α → List String × List α
  | [] => ([], [])
  | a :: rest =>
    let here :=
      if 255 ≤ parsed then ["Can\x27t have more than 255 arguments."] else []
    let (errs, kept) := capLoop (parsed + 1) rest
    (here ++ errs, a :: kept)

/-- Modelled from the spec: parse an argument (or parameter) list under the
255 cap, returning the reported errors and the parsed elements. -/
def parseCallArguments {α : Type} (args : List α) : List String × List α :=
  capLoop 0 args

/-! ## The driver (part_028: `run` lines 109–133, `runFile` lines 68–87)

The four pipeline stages are abstracted by their observable interaction
with the driver: whether each front-end stage calls `report` (setting
`hadError`), whether the interpreter hits a runtime error (setting
`hadRuntimeError`), and what the interpreter would write to stdout. -/

/-- The stage behaviours `run` dispatches over. -/
structure StageBehavior where
  scanReports : Bool
  parseReports : Bool
  resolveReports : Bool
  runtimeFails : Bool
  interpretOutput : List String

/-- The driver-visible outcome: the two flags, whether `Interpret` was
reached, the stdout produced, and the `os.Exit` code (`none` = normal
return). -/
structure DriverOutcome where
  hadError : Bool
  hadRuntimeError : Bool
  interpreterInvoked : Bool
  output : List String
  exitCode : Option Nat

/-- `run`: scan and parse (either may report), gate on `hadError`, resolve
(may report), gate again, and only then interpret. -/
def run (b : StageBehavior) : DriverOutcome :=
  let hadError := b.scanReports || b.parseReports
  if hadError then
    { hadError := true, hadRuntimeError := false, interpreterInvoked := false,
      output := [], exitCode := none }
  else
    let hadError := b.resolveReports
    if hadError then
      { hadError := true, hadRuntimeError := false, interpreterInvoked := false,
        output := [], exitCode := none }
    else
      { hadError := false, hadRuntimeError := b.runtimeFails,
        interpreterInvoked := true, output := b.interpretOutput, exitCode := none }

/-- `runFile`: run, then `os.Exit(65)` if `hadError`, else `os.Exit(70)` if
`hadRuntimeError`, else return normally. -/
def runFile (b : StageBehavior) : DriverOutcome :=
  let o := run b
  if o.hadError then { o with exitCode := some 65 }
  else if o.hadRuntimeError then { o with exitCode := some 70 }
  else o

/-! ## Auxiliary notions used by the theorems -/

/-- The number of newline characters in a character list. -/
def newlineCount (cs : List Char) : Nat :=
  (cs.filter (fun c => c = '\n')).length

/-- The not-yet-consumed source of a scanner state. -/
def Scanner.rest (s : Scanner) : List Char :=
  s.source.drop s.Current

/-- A `*/` pair occurs (adjacently) in the character list. -/
def hasCommentClose : List Char → Bool
  | c :: d :: rest => (c = '*' ∧ d = '/') || hasCommentClose (d :: rest)
  | _ => false

/-- The enclosing chain of frame `e` in state `st`: `e` itself, then its
enclosing frames out to the one with no enclosing pointer. -/
inductive EnvChain (st : St) : Nat → List Nat → Prop where
  | last (e : Nat) : (st.envGetD e).Enclosing = none → EnvChain st e [e]
  | cons (e e2 : Nat) (l : List Nat) : (st.envGetD e).Enclosing = some e2 →
      EnvChain st e2 l → EnvChain st e (e :: l)

/-! ## Concrete programs and states used by the theorems -/

/-- A one-line token. -/
def tok (t : TokenType) (lexeme : String) : Token :=
  { type_ := t, Lexeme := lexeme, Line := 1 }

/-- A one-line identifier token. -/
def idTok (lexeme : String) : Token :=
  tok .Identifier lexeme

/-- A number-literal expression. -/
def numLit (n : GoFloat) : Expr :=
  .Literal (NewNumberLiteral n)

/-- A `)` call token. -/
def parenTok : Token :=
  tok .RightParen ")"

/-- `fun f() { 42; }  f();` — a function whose body ends in an expression
statement and contains no `return`. -/
def funBodyValueProgram : List Stmt :=
  [.Function (idTok "f") [] [.Expression (numLit 42)],
   .Expression (.Call (.Variable 100 (idTok "f")) parenTok [])]

/-- `var a = 0; 1(a = 5);` — a call whose callee is not callable and whose
only argument has a visible side effect. -/
def argSideEffectProgram : List Stmt :=
  [.Var (idTok "a") (some (numLit 0)),
   .Expression (.Call (numLit 1) parenTok [.Assign 1 (idTok "a") (numLit 5)])]

/-- `class C { m() { print this.x; } }`. -/
def classStmtC : Stmt :=
  .ClassS (idTok "C") none
    [(idTok "m", [], [.Print (.Get (.This 1 (tok .This "this")) (idTok "x"))])]

/-- `var obj = C();`. -/
def varObjStmt : Stmt :=
  .Var (idTok "obj") (some (.Call (.Variable 2 (idTok "C")) parenTok []))

/-- `obj.x = 5;`. -/
def setObjXStmt : Stmt :=
  .Expression (.Set (.Variable 3 (idTok "obj")) (idTok "x") (numLit 5))

/-- `obj.m();` — the direct method call. -/
def callDirectStmt : Stmt :=
  .Expression (.Call (.Get (.Variable 4 (idTok "obj")) (idTok "m")) parenTok [])

/-- `var m = obj.m;` — the get, stored. -/
def varMStmt : Stmt :=
  .Var (idTok "m") (some (.Get (.Variable 5 (idTok "obj")) (idTok "m")))

/-- `m();` — the stored bound method, called later. -/
def callMStmt : Stmt :=
  .Expression (.Call (.Variable 6 (idTok "m")) parenTok [])

/-- `class C { m() { print this.x; } } var obj = C(); obj.x = 5; obj.m();` -/
def methodDirectProgram : List Stmt :=
  [classStmtC, varObjStmt, setObjXStmt, callDirectStmt]

/-- `class C { m() { print this.x; } } var obj = C(); obj.x = 5;
var m = obj.m; m();` -/
def methodViaVariableProgram : List Stmt :=
  [classStmtC, varObjStmt, setObjXStmt, varMStmt, callMStmt]

/-- The resolver side table of the method-binding programs: the single
`this` use inside the method body sits one frame in from the call frame. -/
def methodProgramLocals : List (Nat × Nat) :=
  [(1, 1)]

/-- The method function created for `m` of `classStmtC`. -/
def mMethodFn : LoxFunction :=
  { fid := 0,
    Declaration := { Name := idTok "m", Params := [],
                     Body := [.Print (.Get (.This 1 (tok .This "this")) (idTok "x"))] },
    Closure := 0, IsInitializer := false }

/-- The interpreter state the method-binding programs start from. -/
def methodSt0 : St :=
  { NewInterpreterState with Locals := methodProgramLocals }

/-- The state after `class C { ... }`. -/
def methodSt1 : St :=
  { envs := [{ Values := [("C", .ClassV 0), ("C", .NilV),
               ("clock", .FunctionV .clockFunction)] }],
    classes := [{ ClassName := "C", Superclass := none,
                  Methods := [("m", mMethodFn)] }],
    Locals := methodProgramLocals, nextFid := 1 }

/-- The state after `var obj = C();`. -/
def methodSt2 : St :=
  { methodSt1 with
    envs := [{ Values := [("obj", .InstanceV 0), ("C", .ClassV 0), ("C", .NilV),
               ("clock", .FunctionV .clockFunction)] }],
    instances := [{ Class := 0 }] }

/-- The state after `obj.x = 5;`. -/
def methodSt3 : St :=
  { methodSt2 with
    instances := [{ Class := 0, Fields := [("x", .NumberV 5)] }] }

/-- `var g = 0; for (var i = 0; i < 2; g = g + 10) { i = i + 1;
if (i == 1) continue; }` — the increment has a visible side effect and one
iteration ends via `continue`. -/
def forContinueProgram : List Stmt :=
  [.Var (idTok "g") (some (numLit 0)),
   desugarFor (some (.Var (idTok "i") (some (numLit 0))))
     (some (.Binary (.Variable 10 (idTok "i")) (tok .Less "<") (numLit 1)))
     (some (.Assign 11 (idTok "g")
        (.Binary (.Variable 12 (idTok "g")) (tok .Plus "+") (numLit 10))))
     (.Block
        [.Expression (.Assign 13 (idTok "i")
           (.Binary (.Variable 14 (idTok "i")) (tok .Plus "+") (numLit 1))),
         .Continue (tok .Continue "continue")])]

/-- The same loop without the trailing `continue`: its single iteration
runs the increment `g = g + 10`. -/
def forNoContinueProgram : List Stmt :=
  [.Var (idTok "g") (some (numLit 0)),
   desugarFor (some (.Var (idTok "i") (some (numLit 0))))
     (some (.Binary (.Variable 10 (idTok "i")) (tok .Less "<") (numLit 1)))
     (some (.Assign 11 (idTok "g")
        (.Binary (.Variable 12 (idTok "g")) (tok .Plus "+") (numLit 10))))
     (.Block
        [.Expression (.Assign 13 (idTok "i")
           (.Binary (.Variable 14 (idTok "i")) (tok .Plus "+") (numLit 1)))])]

/-- The resolver side table of `forContinueProgram` and
`forNoContinueProgram`: the loop variable `i` is read at depth 0 from the
condition and depth 2 from inside the loop body; `g` is global. -/
def forContinueLocals : List (Nat × Nat) :=
  [(10, 0), (13, 2), (14, 2)]

/-- `class C { init() { return 1; } }` — a value-carrying `return` directly
in an initializer body. -/
def initReturnOneClass : Stmt :=
  .ClassS (idTok "C") none
    [(idTok "init", [], [.Return (tok .Return "return") (some (numLit 1))])]

/-- A two-frame environment chain for the lookup-safety witness: frame 1
(`y` defined) encloses into frame 0 (`x` defined). -/
def chainWitnessState : St :=
  { envs := [{ Values := [("x", .NumberV 1)] },
             { Values := [("y", .NumberV 2)], Enclosing := some 0 }] }

/-- A closure frame binding `this`, for the initializer-call witness: the
function has an empty body and its closure is frame 1 where `this` is an
instance. -/
def initWitnessState : St :=
  { envs := [{}, { Values := [("this", .InstanceV 0)], Enclosing := some 0 }],
    instances := [{ Class := 0 }],
    classes := [{ ClassName := "C" }] }

/-- The initializer of the witness: empty body, closure frame 1. -/
def initWitnessFunction : LoxFunction :=
  { fid := 0,
    Declaration := { Name := idTok "init", Params := [], Body := [] },
    Closure := 1, IsInitializer := true }

/-- The method `m` of the binding witness. -/
def bindWitnessMethod : LoxFunction :=
  { fid := 0,
    Declaration := { Name := idTok "m", Params := [], Body := [] },
    Closure := 0, IsInitializer := false }

/-- A one-class, one-instance state for the method-binding witness: class
`C` has a method `m` and instance 0 has no fields. -/
def bindWitnessState : St :=
  { envs := [{}],
    classes := [{ ClassName := "C", Methods := [("m", bindWitnessMethod)] }],
    instances := [{ Class := 0 }] }

/-- A plain function with the body `{ 42; }`, closure at the globals. -/
def plainWitnessFunction : LoxFunction :=
  { fid := 1,
    Declaration := { Name := idTok "f", Params := [], Body := [.Expression (numLit 42)] },
    Closure := 0, IsInitializer := false }

end Golox

namespace Golox

mutual

theorem resolveStatement_cf (r : ResolverState) (s : Stmt) :
    (resolveStatement r s).CurrentFunction = r.CurrentFunction := by
  cases s with
  | Return kw v =>
    simp only [resolveStatement, ResolverState.reportError]
    split <;> split <;> rfl
  | Function n p body => simp only [resolveStatement, resolveFunction]
  | Block stmts =>
    simp only [resolveStatement]
    exact resolveStatements_cf r stmts
  | If c t e =>
    cases e with
    | none =>
      simp only [resolveStatement]
      exact resolveStatement_cf r t
    | some e2 =>
      simp only [resolveStatement]
      rw [resolveStatement_cf (resolveStatement r t) e2, resolveStatement_cf r t]
  | While c b =>
    simp only [resolveStatement]
    exact resolveStatement_cf r b
  | ClassS n sc methods =>
    simp only [resolveStatement]
    exact resolveMethods_cf r methods
  | Expression e => simp only [resolveStatement]
  | Print e => simp only [resolveStatement]
  | Var n i => simp only [resolveStatement]
  | Break k => simp only [resolveStatement]
  | Continue k => simp only [resolveStatement]
termination_by (sizeOf s, 0)

theorem resolveStatements_cf (r : ResolverState) (l : List Stmt) :
    (resolveStatements r l).CurrentFunction = r.CurrentFunction := by
  cases l with
  | nil => simp only [resolveStatements]
  | cons s rest =>
    simp only [resolveStatements]
    rw [resolveStatements_cf (resolveStatement r s) rest, resolveStatement_cf r s]
termination_by (sizeOf l, 0)

theorem resolveMethods_cf (r : ResolverState)
    (ms : List (Token × List Token × List Stmt)) :
    (resolveMethods r ms).CurrentFunction = r.CurrentFunction := by
  cases ms with
  | nil => simp only [resolveMethods]
  | cons m rest =>
    obtain ⟨name, params, body⟩ := m
    simp only [resolveMethods]
    rw [resolveMethods_cf _ rest]
    simp only [resolveFunction]
termination_by (sizeOf ms, 0)

end

theorem errors_ne_nil_of_prefix {x y : List String} (h : x <+: y) (hx : x ≠ []) :
    y ≠ [] := by
  obtain ⟨t, rfl⟩ := h
  intro hc
  exact hx (List.append_eq_nil.mp hc).1

mutual

theorem resolveStatement_errors_extend (r : ResolverState) (s : Stmt) :
    r.errors <+: (resolveStatement r s).errors := by
  cases s with
  | Return kw v =>
    simp only [resolveStatement, ResolverState.reportError]
    split <;> split
    · simp only [List.append_assoc]
      exact List.prefix_append _ _
    · exact List.prefix_append _ _
    · exact List.prefix_append _ _
    · exact List.prefix_refl _
  | Function n p body =>
    simp only [resolveStatement, resolveFunction]
    exact resolveStatements_errors_extend { r with CurrentFunction := .FunctionTypeFunction } body
  | Block stmts =>
    simp only [resolveStatement]
    exact resolveStatements_errors_extend r stmts
  | If c t e =>
    cases e with
    | none =>
      simp only [resolveStatement]
      exact resolveStatement_errors_extend r t
    | some e2 =>
      simp only [resolveStatement]
      exact (resolveStatement_errors_extend r t).trans
        (resolveStatement_errors_extend (resolveStatement r t) e2)
  | While c b =>
    simp only [resolveStatement]
    exact resolveStatement_errors_extend r b
  | ClassS n sc methods =>
    simp only [resolveStatement]
    exact resolveMethods_errors_extend r methods
  | Expression e => simp only [resolveStatement]; exact List.prefix_refl _
  | Print e => simp only [resolveStatement]; exact List.prefix_refl _
  | Var n i => simp only [resolveStatement]; exact List.prefix_refl _
  | Break k => simp only [resolveStatement]; exact List.prefix_refl _
  | Continue k => simp only [resolveStatement]; exact List.prefix_refl _
termination_by (sizeOf s, 0)

theorem resolveStatements_errors_extend (r : ResolverState) (l : List Stmt) :
    r.errors <+: (resolveStatements r l).errors := by
  cases l with
  | nil => simp only [resolveStatements]; exact List.prefix_refl _
  | cons s rest =>
    simp only [resolveStatements]
    exact (resolveStatement_errors_extend r s).trans
      (resolveStatements_errors_extend (resolveStatement r s) rest)
termination_by (sizeOf l, 0)

theorem resolveMethods_errors_extend (r : ResolverState)
    (ms : List (Token × List Token × List Stmt)) :
    r.errors <+: (resolveMethods r ms).errors := by
  cases ms with
  | nil => simp only [resolveMethods]; exact List.prefix_refl _
  | cons m rest =>
    obtain ⟨name, params, body⟩ := m
    simp only [resolveMethods, resolveFunction]
    refine List.IsPrefix.trans ?_ (resolveMethods_errors_extend _ rest)
    exact resolveStatements_errors_extend
      { r with CurrentFunction :=
          if name.Lexeme == "init" then FunctionType.FunctionTypeInitializer
          else FunctionType.FunctionTypeMethod } body
termination_by (sizeOf ms, 0)

end

mutual

theorem resolveStatement_init_error (r : ResolverState) (s : Stmt)
    (hcf : r.CurrentFunction = .FunctionTypeInitializer)
    (h : hasValueReturn s = true) :
    (resolveStatement r s).errors ≠ [] := by
  cases s with
  | Return kw v =>
    cases v with
    | none => simp [hasValueReturn] at h
    | some x =>
      simp only [resolveStatement, ResolverState.reportError]
      simp [hcf]
  | Function n p body => simp [hasValueReturn] at h
  | Block stmts =>
    simp only [resolveStatement]
    exact resolveStatements_init_error r stmts hcf (by simpa [hasValueReturn] using h)
  | If c t e =>
    cases e with
    | none =>
      simp only [resolveStatement]
      simp only [hasValueReturn, Bool.or_false] at h
      exact resolveStatement_init_error r t hcf h
    | some e2 =>
      simp only [resolveStatement]
      simp only [hasValueReturn, Bool.or_eq_true] at h
      rcases h with h | h
      · exact errors_ne_nil_of_prefix
          (resolveStatement_errors_extend (resolveStatement r t) e2)
          (resolveStatement_init_error r t hcf h)
      · exact resolveStatement_init_error (resolveStatement r t) e2
          ((resolveStatement_cf r t).trans hcf) h
  | While c b =>
    simp only [resolveStatement]
    exact resolveStatement_init_error r b hcf (by simpa [hasValueReturn] using h)
  | ClassS n sc methods => simp [hasValueReturn] at h
  | Expression e => simp [hasValueReturn] at h
  | Print e => simp [hasValueReturn] at h
  | Var n i => simp [hasValueReturn] at h
  | Break k => simp [hasValueReturn] at h
  | Continue k => simp [hasValueReturn] at h
termination_by (sizeOf s, 0)

theorem resolveStatements_init_error (r : ResolverState) (l : List Stmt)
    (hcf : r.CurrentFunction = .FunctionTypeInitializer)
    (h : hasValueReturnList l = true) :
    (resolveStatements r l).errors ≠ [] := by
  cases l with
  | nil => simp [hasValueReturnList] at h
  | cons s rest =>
    simp only [resolveStatements]
    simp only [hasValueReturnList, Bool.or_eq_true] at h
    rcases h with h | h
    · exact errors_ne_nil_of_prefix
        (resolveStatements_errors_extend (resolveStatement r s) rest)
        (resolveStatement_init_error r s hcf h)
    · exact resolveStatements_init_error (resolveStatement r s) rest
        ((resolveStatement_cf r s).trans hcf) h
termination_by (sizeOf l, 0)

end

theorem resolveMethods_init_error (r : ResolverState)
    (ms : List (Token × List Token × List Stmt))
    (mname : Token) (params : List Token) (body : List Stmt)
    (hmem : (mname, params, body) ∈ ms)
    (hinit : mname.Lexeme = "init")
    (hret : hasValueReturnList body = true) :
    (resolveMethods r ms).errors ≠ [] := by
  induction ms generalizing r with
  | nil => cases hmem
  | cons m rest ih =>
    obtain ⟨name, p, b⟩ := m
    simp only [resolveMethods]
    rcases List.mem_cons.mp hmem with heq | hmem2
    · simp only [Prod.mk.injEq] at heq
      obtain ⟨h1, h2a, h2b⟩ := heq
      refine errors_ne_nil_of_prefix (resolveMethods_errors_extend _ rest) ?_
      have hlex : (name.Lexeme == "init") = true := by
        rw [← h1, hinit]; decide
      rw [if_pos hlex]
      simp only [resolveFunction]
      exact resolveStatements_init_error _ b rfl (h2b ▸ hret)
    · exact ih _ hmem2

/-- C1: a `return <value>;` inside the body of a method named `init`
makes the resolver report at least one error on the enclosing class
declaration, whatever resolver state the walk reaches it in; interpretation
of such a program is therefore preceded by a static (resolve) error. -/
theorem initializer_value_return_is_resolve_error
    (r : ResolverState) (cname : Token) (sc : Option (Nat × Token))
    (methods : List (Token × List Token × List Stmt))
    (mname : Token) (params : List Token) (body : List Stmt)
    (hmem : (mname, params, body) ∈ methods)
    (hinit : mname.Lexeme = "init")
    (hret : hasValueReturnList body = true) :
    (resolveStatement r (.ClassS cname sc methods)).errors ≠ [] := by
  simp only [resolveStatement]
  exact resolveMethods_init_error r methods mname params body hmem hinit hret

/-- Witness for C1 at the concrete class `class C { init() { return 1; } }`
resolved from the initial resolver state. -/
theorem initializer_value_return_is_resolve_error_witness :
    (resolveStatement {} initReturnOneClass).errors ≠ [] :=
  initializer_value_return_is_resolve_error {} (idTok "C") none
    [(idTok "init", [], [.Return (tok .Return "return") (some (numLit 1))])]
    (idTok "init") [] [.Return (tok .Return "return") (some (numLit 1))]
    (List.mem_singleton.mpr rfl) rfl
    (by simp [hasValueReturnList, hasValueReturn])


theorem drop_cons_getD (l : List Char) (n : Nat) (h : n < l.length) :
    l.drop n = l.getD n nulChar :: l.drop (n + 1) := by
  rw [List.getD_eq_getElem?_getD, List.getElem?_eq_getElem h]
  exact List.drop_eq_getElem_cons h

theorem newlineCount_cons (c : Char) (cs : List Char) :
    newlineCount (c :: cs) = (if c = '\n' then 1 else 0) + newlineCount cs := by
  simp only [newlineCount, List.filter_cons]
  split
  · simp_all [Nat.add_comm]
  · simp_all

theorem stringLiteralLoop_unterminated (fuel : Nat) :
    ∀ s : Scanner, s.rest.length ≤ fuel →
    s.Current ≤ s.source.length →
    Char.ofNat 34 ∉ s.rest → nulChar ∉ s.rest →
    Scanner.stringLiteralLoop fuel s =
      { s with Current := s.source.length,
               Line := s.Line + newlineCount s.rest } := by
  induction fuel with
  | zero =>
    intro s hlen hcur _ _
    have h0 : s.rest.length = 0 := Nat.le_zero.mp hlen
    have hco : s.source.length ≤ s.Current := by
      simp only [Scanner.rest, List.length_drop] at h0
      omega
    have hc : s.Current = s.source.length := le_antisymm hcur hco
    have hrest : s.rest = [] := List.eq_nil_of_length_eq_zero h0
    simp only [Scanner.stringLiteralLoop, hrest, newlineCount, List.filter_nil,
      List.length_nil, Nat.add_zero, ← hc]
  | succ fuel ih =>
    intro s hlen hcur hq hn
    by_cases hend : s.source.length ≤ s.Current
    · have hc : s.Current = s.source.length := le_antisymm hcur hend
      have hrest : s.rest = [] := by
        simp [Scanner.rest, hc]
      have hpeek : s.peek = nulChar := by
        simp [Scanner.peek, Scanner.isAtEnd, hend]
      simp only [Scanner.stringLiteralLoop, hpeek, or_true, if_pos, hrest,
        newlineCount, List.filter_nil, List.length_nil, Nat.add_zero, ← hc]
    · push_neg at hend
      have hrest : s.rest = s.source.getD s.Current nulChar ::
          s.source.drop (s.Current + 1) := drop_cons_getD _ _ hend
      have hcmem : s.source.getD s.Current nulChar ∈ s.rest := by
        rw [hrest]; exact List.mem_cons_self _ _
      have hpeek : s.peek = s.source.getD s.Current nulChar := by
        simp [Scanner.peek, Scanner.isAtEnd, Nat.not_le.mpr hend]
      have hlen2 : (s.source.drop (s.Current + 1)).length ≤ fuel := by
        rw [hrest] at hlen
        simpa using hlen
      have hq2 : Char.ofNat 34 ∉ s.source.drop (s.Current + 1) := by
        intro hm
        exact hq (hrest ▸ List.mem_cons_of_mem _ hm)
      have hn2 : nulChar ∉ s.source.drop (s.Current + 1) := by
        intro hm
        exact hn (hrest ▸ List.mem_cons_of_mem _ hm)
      simp only [Scanner.stringLiteralLoop, hpeek]
      rw [if_neg (by
        rintro (h1 | h1)
        · exact hq (h1 ▸ hcmem)
        · exact hn (h1 ▸ hcmem))]
      by_cases hnl : s.source.getD s.Current nulChar = '\n'
      · rw [if_pos hnl]
        have hadv : (({ s with Line := s.Line + 1 } : Scanner).advance).2 =
            { s with Line := s.Line + 1, Current := s.Current + 1 } := by
          simp [Scanner.advance, Scanner.isAtEnd, Nat.not_le.mpr hend]
        rw [hadv,
          ih { s with Line := s.Line + 1, Current := s.Current + 1 } hlen2 hend hq2 hn2]
        have hnext : ({ s with Line := s.Line + 1, Current := s.Current + 1 } : Scanner).rest
            = s.source.drop (s.Current + 1) := rfl
        simp only [Scanner.mk.injEq, true_and, and_true, hnext]
        rw [hrest, newlineCount_cons, if_pos hnl]
        omega
      · rw [if_neg hnl]
        have hadv : (s.advance).2 = { s with Current := s.Current + 1 } := by
          simp [Scanner.advance, Scanner.isAtEnd, Nat.not_le.mpr hend]
        rw [hadv, ih { s with Current := s.Current + 1 } hlen2 hend hq2 hn2]
        have hnext : ({ s with Current := s.Current + 1 } : Scanner).rest
            = s.source.drop (s.Current + 1) := rfl
        simp only [Scanner.mk.injEq, true_and, and_true, hnext]
        rw [hrest, newlineCount_cons, if_neg hnl]
        omega

theorem hasCommentClose_cons_false {c : Char} {cs : List Char}
    (h : hasCommentClose (c :: cs) = false) : hasCommentClose cs = false := by
  cases cs with
  | nil => rfl
  | cons d cs2 =>
    simp only [hasCommentClose, Bool.or_eq_false_iff] at h
    exact h.2

theorem multiCommentLoop_unterminated (fuel : Nat) :
    ∀ s : Scanner, s.rest.length ≤ fuel →
    s.Current ≤ s.source.length →
    hasCommentClose s.rest = false → nulChar ∉ s.rest →
    Scanner.multiCommentLoop fuel s =
      { s with Current := s.source.length,
               Line := s.Line + newlineCount s.rest } := by
  induction fuel with
  | zero =>
    intro s hlen hcur _ _
    have h0 : s.rest.length = 0 := Nat.le_zero.mp hlen
    have hco : s.source.length ≤ s.Current := by
      simp only [Scanner.rest, List.length_drop] at h0
      omega
    have hc : s.Current = s.source.length := le_antisymm hcur hco
    have hrest : s.rest = [] := List.eq_nil_of_length_eq_zero h0
    simp only [Scanner.multiCommentLoop, hrest, newlineCount, List.filter_nil,
      List.length_nil, Nat.add_zero, ← hc]
  | succ fuel ih =>
    intro s hlen hcur hclose hn
    by_cases hend : s.source.length ≤ s.Current
    · have hc : s.Current = s.source.length := le_antisymm hcur hend
      have hrest : s.rest = [] := by
        simp [Scanner.rest, hc]
      have hpeek : s.peek = nulChar := by
        simp [Scanner.peek, Scanner.isAtEnd, hend]
      simp only [Scanner.multiCommentLoop, hpeek, or_true, if_pos, hrest,
        newlineCount, List.filter_nil, List.length_nil, Nat.add_zero, ← hc]
    · push_neg at hend
      have hrest : s.rest = s.source.getD s.Current nulChar ::
          s.source.drop (s.Current + 1) := drop_cons_getD _ _ hend
      have hcmem : s.source.getD s.Current nulChar ∈ s.rest := by
        rw [hrest]; exact List.mem_cons_self _ _
      have hpeek : s.peek = s.source.getD s.Current nulChar := by
        simp [Scanner.peek, Scanner.isAtEnd, Nat.not_le.mpr hend]
      have hlen2 : (s.source.drop (s.Current + 1)).length ≤ fuel := by
        rw [hrest] at hlen
        simpa using hlen
      have hclose2 : hasCommentClose (s.source.drop (s.Current + 1)) = false := by
        rw [hrest] at hclose
        exact hasCommentClose_cons_false hclose
      have hn2 : nulChar ∉ s.source.drop (s.Current + 1) := by
        intro hm
        exact hn (hrest ▸ List.mem_cons_of_mem _ hm)
      simp only [Scanner.multiCommentLoop, hpeek]
      rw [if_neg (by
        rintro (⟨h1, h2⟩ | h1)
        · by_cases h3 : s.source.length ≤ s.Current + 1
          · have hpn : s.peekNext = nulChar := by
              simp [Scanner.peekNext, h3]
            rw [hpn] at h2
            exact absurd h2 (by decide)
          · push_neg at h3
            have hd2 : s.source.drop (s.Current + 1) =
                s.source.getD (s.Current + 1) nulChar :: s.source.drop (s.Current + 2) :=
              drop_cons_getD _ _ h3
            have hpn : s.peekNext = s.source.getD (s.Current + 1) nulChar := by
              simp [Scanner.peekNext, Nat.not_le.mpr h3]
            rw [hrest, hd2] at hclose
            simp only [hasCommentClose, Bool.or_eq_false_iff,
              decide_eq_false_iff_not] at hclose
            exact hclose.1 ⟨h1, hpn ▸ h2⟩
        · exact hn (h1 ▸ hcmem))]
      by_cases hnl : s.source.getD s.Current nulChar = '\n'
      · rw [if_pos hnl]
        have hadv : (({ s with Line := s.Line + 1 } : Scanner).advance).2 =
            { s with Line := s.Line + 1, Current := s.Current + 1 } := by
          simp [Scanner.advance, Scanner.isAtEnd, Nat.not_le.mpr hend]
        rw [hadv,
          ih { s with Line := s.Line + 1, Current := s.Current + 1 } hlen2 hend hclose2 hn2]
        have hnext : ({ s with Line := s.Line + 1, Current := s.Current + 1 } : Scanner).rest
            = s.source.drop (s.Current + 1) := rfl
        simp only [Scanner.mk.injEq, true_and, and_true, hnext]
        rw [hrest, newlineCount_cons, if_pos hnl]
        omega
      · rw [if_neg hnl]
        have hadv : (s.advance).2 = { s with Current := s.Current + 1 } := by
          simp [Scanner.advance, Scanner.isAtEnd, Nat.not_le.mpr hend]
        rw [hadv, ih { s with Current := s.Current + 1 } hlen2 hend hclose2 hn2]
        have hnext : ({ s with Current := s.Current + 1 } : Scanner).rest
            = s.source.drop (s.Current + 1) := rfl
        simp only [Scanner.mk.injEq, true_and, and_true, hnext]
        rw [hrest, newlineCount_cons, if_neg hnl]
        omega

/-- C5 (amended): when the remaining input holds no closing delimiter, the
scanner consumes it to the end and reports the unterminated-string or
unterminated-comment error at `s.Line + newlineCount s.rest` — the line
where the input ends — not at the line of the opening delimiter. -/
theorem unterminated_error_reports_final_line (s : Scanner)
    (hcur : s.Current ≤ s.source.length)
    (hn : nulChar ∉ s.rest) :
    (Char.ofNat 34 ∉ s.rest →
      ∃ m, (s.stringLiteral).errors =
        s.errors ++ [(s.Line + newlineCount s.rest, m)]) ∧
    (hasCommentClose s.rest = false →
      ∃ m, (s.multiComment).errors =
        s.errors ++ [(s.Line + newlineCount s.rest, m)]) := by
  have hlen : s.rest.length ≤ s.source.length := by
    simp [Scanner.rest]
  constructor
  · intro hq
    have hloop := stringLiteralLoop_unterminated s.source.length s hlen hcur hq hn
    refine ⟨"Unterminated string literal \x27" ++
      Scanner.lexeme { s with
        Current := s.source.length,
        Line := s.Line + newlineCount s.rest } ++ "\x27", ?_⟩
    simp only [Scanner.stringLiteral, hloop]
    rw [if_pos (by simp [Scanner.isAtEnd])]
    rfl
  · intro hclose
    have hloop := multiCommentLoop_unterminated s.source.length s hlen hcur hclose hn
    refine ⟨"Unterminated multi-line comment \x27" ++
      Scanner.lexeme { s with
        Current := s.source.length,
        Line := s.Line + newlineCount s.rest } ++ "\x27", ?_⟩
    simp only [Scanner.multiComment, hloop]
    rw [if_pos (by simp [Scanner.isAtEnd])]
    rfl

/-- Witness for the amended C5 at the scanner state just after an opening
`"` on line 1 with remaining input `a`, newline, `b`: the error is reported
on line 2. -/
theorem unterminated_error_reports_final_line_witness :
    ∃ m, (Scanner.stringLiteral
        { source := [Char.ofNat 34, 'a', '\n', 'b'], Current := 1 }).errors =
      [] ++ [(1 + newlineCount (Scanner.rest
        { source := [Char.ofNat 34, 'a', '\n', 'b'], Current := 1 }), m)] :=
  (unterminated_error_reports_final_line
    { source := [Char.ofNat 34, 'a', '\n', 'b'], Current := 1 }
    (by decide) (by decide)).1 (by decide)

/-- C10: `for` desugars to a `While` whose body is `Block [body, increment]`;
a `continue` signal from the body aborts the block before the increment
statement and is consumed by the while loop, which re-tests the condition;
concretely, a one-iteration `for` loop whose body ends in `continue` leaves
the increment target `g` at `0`, while the identical loop without the
`continue` leaves it at `10`. -/
theorem continue_skips_for_increment :
    (∀ (condition increment : Expr) (body : Stmt),
       desugarFor none (some condition) (some increment) body =
         .While condition (.Block [body, .Expression increment])) ∧
    (∀ (fuel : Nat) (body : Stmt) (rest : List Stmt) (st st1 : St)
       (d : RuntimeErrorData),
       execute fuel body st = (.error (.ContinueErrorE d), st1) →
       execStmts (fuel + 1) (body :: rest) none st =
         (.error (.ContinueErrorE d), st1)) ∧
    (∀ (fuel : Nat) (condition : Expr) (body : Stmt) (st st1 st2 : St)
       (c : Value) (d : RuntimeErrorData),
       evaluate fuel condition st = (.ok c, st1) → c.isTruthy = true →
       execute fuel body st1 = (.error (.ContinueErrorE d), st2) →
       whileLoop (fuel + 1) condition body st = whileLoop fuel condition body st2) ∧
    ((Interpret 20 forContinueLocals forContinueProgram).2.envGetD 0).Values.lookup "g" =
       some (.NumberV (GoFloat.ofNat 0)) ∧
    ((Interpret 20 forContinueLocals forNoContinueProgram).2.envGetD 0).Values.lookup "g" =
       some (.NumberV (GoFloat.ofNat 10)) := by
  refine ⟨?_, ?_, ?_, ?_, ?_⟩
  · intro condition increment body; rfl
  · intro fuel body rest st st1 d h
    simp only [execStmts, h]
  · intro fuel condition body st st1 st2 c d hc ht hb
    simp only [whileLoop, hc, ht, Bool.not_true, Bool.false_eq_true, if_false, hb]
  · rfl
  · rfl

/-- Witness for the conditional conjuncts of the `continue` theorem at a
concrete continue signal: a bare `continue` statement aborts a block and is
consumed by a `while` over a false-after-one-pass condition. -/
theorem continue_skips_for_increment_witness :
    execStmts 6 [.Continue (tok .Continue "continue")] none NewInterpreterState =
      (.error (.ContinueErrorE {
        Message := "Continue only supported in loops.",
        Line := 1 }), NewInterpreterState) ∧
    whileLoop 6 (.Literal (NewBoolLiteral true)) (.Continue (tok .Continue "continue"))
        NewInterpreterState =
      whileLoop 5 (.Literal (NewBoolLiteral true)) (.Continue (tok .Continue "continue"))
        NewInterpreterState := by
  constructor
  · exact (continue_skips_for_increment.2.1 5 _ [] _ _ _ rfl)
  · exact (continue_skips_for_increment.2.2.1 5 _ _ _ _ _ _ _ rfl rfl rfl)

theorem execStmts_cons_ok (fuel : Nat) (s : Stmt) (rest : List Stmt)
    (acc : Option Value) (v : Option Value) (st st1 : St)
    (h : execute fuel s st = (.ok v, st1)) :
    execStmts (fuel + 1) (s :: rest) acc st = execStmts fuel rest v st1 := by
  simp only [execStmts, h]

theorem Bind_this (st : St) (fn : LoxFunction) (i : Nat) :
    (st.Bind fn i).1.Declaration = fn.Declaration ∧
    (st.Bind fn i).1.IsInitializer = fn.IsInitializer ∧
    (((st.Bind fn i).2).envGetD ((st.Bind fn i).1.Closure)).Values.lookup "this" =
      some (.InstanceV i) ∧
    (((st.Bind fn i).2).envGetD ((st.Bind fn i).1.Closure)).Enclosing =
      some fn.Closure := by
  refine ⟨rfl, rfl, ?_, ?_⟩ <;>
  · simp only [St.Bind, St.newEnvironmentScope, St.envDefine, St.setEnv, St.envGetD,
      List.getD_eq_getElem?_getD, List.getElem?_concat_length, Option.getD_some]
    rw [List.getElem?_set_eq_of_lt _ (by simp)]
    rfl

theorem instanceGet_binds (st : St) (i : Nat) (name : Token)
    (method : LoxFunction)
    (hf : (st.instGetD i).Fields.lookup name.Lexeme = none)
    (hm : st.FindMethod (st.instGetD i).Class name.Lexeme = some method) :
    st.instanceGet i name =
      (.ok (.FunctionV (.loxFunction (st.Bind method i).1)), (st.Bind method i).2) := by
  simp only [St.instanceGet, hf, hm]

theorem methodStepClass : execute 19 classStmtC methodSt0 = (.ok none, methodSt1) := rfl

theorem methodStepVarObj :
    execute 18 varObjStmt methodSt1 = (.ok (some (.InstanceV 0)), methodSt2) := rfl

theorem methodStepSetX :
    execute 17 setObjXStmt methodSt2 = (.ok (some (.NumberV 5)), methodSt3) := rfl

theorem methodDirectTail :
    (execStmts 17 [callDirectStmt] (some (.NumberV 5)) methodSt3).2.output = ["5"] := rfl

theorem methodViaVariableTail :
    (execStmts 17 [varMStmt, callMStmt] (some (.NumberV 5)) methodSt3).2.output = ["5"] := rfl

/-- C8: the property get on an instance whose class has a matching method
(and whose fields do not shadow it) returns the method bound to the
instance — a closure whose environment maps `this` to that instance and
encloses the method closure — independently of the later call site;
concretely, `obj.m()` and `var m = obj.m; m();` print the same `5`. -/
theorem method_binding_via_variable_equals_direct :
    (∀ (st : St) (i : Nat) (name : Token) (method : LoxFunction),
       (st.instGetD i).Fields.lookup name.Lexeme = none →
       st.FindMethod (st.instGetD i).Class name.Lexeme = some method →
       st.instanceGet i name =
         (.ok (.FunctionV (.loxFunction (st.Bind method i).1)), (st.Bind method i).2) ∧
       (st.Bind method i).1.Declaration = method.Declaration ∧
       (st.Bind method i).1.IsInitializer = method.IsInitializer ∧
       (((st.Bind method i).2).envGetD ((st.Bind method i).1.Closure)).Values.lookup
         "this" = some (.InstanceV i) ∧
       (((st.Bind method i).2).envGetD ((st.Bind method i).1.Closure)).Enclosing =
         some method.Closure) ∧
    (Interpret 20 methodProgramLocals methodDirectProgram).2.output = ["5"] ∧
    (Interpret 20 methodProgramLocals methodViaVariableProgram).2.output = ["5"] := by
  refine ⟨?_, ?_, ?_⟩
  · intro st i name method hf hm
    obtain ⟨h1, h2, h3, h4⟩ := Bind_this st method i
    exact ⟨instanceGet_binds st i name method hf hm, h1, h2, h3, h4⟩
  · have h1 : Interpret 20 methodProgramLocals methodDirectProgram =
        execStmts 17 [callDirectStmt] (some (.NumberV 5)) methodSt3 :=
      (execStmts_cons_ok 19 classStmtC _ none none methodSt0 methodSt1
          methodStepClass).trans
        ((execStmts_cons_ok 18 varObjStmt _ none (some (.InstanceV 0)) methodSt1
            methodSt2 methodStepVarObj).trans
          (execStmts_cons_ok 17 setObjXStmt _ (some (.InstanceV 0)) (some (.NumberV 5))
            methodSt2 methodSt3 methodStepSetX))
    rw [h1]
    exact methodDirectTail
  · have h1 : Interpret 20 methodProgramLocals methodViaVariableProgram =
        execStmts 17 [varMStmt, callMStmt] (some (.NumberV 5)) methodSt3 :=
      (execStmts_cons_ok 19 classStmtC _ none none methodSt0 methodSt1
          methodStepClass).trans
        ((execStmts_cons_ok 18 varObjStmt _ none (some (.InstanceV 0)) methodSt1
            methodSt2 methodStepVarObj).trans
          (execStmts_cons_ok 17 setObjXStmt _ (some (.InstanceV 0)) (some (.NumberV 5))
            methodSt2 methodSt3 methodStepSetX))
    rw [h1]
    exact methodViaVariableTail

/-- Witness for the binding conjunct of the method-binding theorem at a
one-class, one-instance state whose class `C` carries a method `m`. -/
theorem method_binding_via_variable_equals_direct_witness :
    bindWitnessState.instanceGet 0 (idTok "m") =
      (.ok (.FunctionV (.loxFunction (bindWitnessState.Bind bindWitnessMethod 0).1)),
        (bindWitnessState.Bind bindWitnessMethod 0).2) ∧
    ((bindWitnessState.Bind bindWitnessMethod 0).2.envGetD
        ((bindWitnessState.Bind bindWitnessMethod 0).1.Closure)).Values.lookup "this" =
      some (.InstanceV 0) := by
  obtain ⟨h1, _, _, h4, _⟩ :=
    method_binding_via_variable_equals_direct.1 bindWitnessState 0 (idTok "m")
      bindWitnessMethod rfl rfl
  exact ⟨h1, h4⟩

/-- C2: the scanner has no keyword entries for `break`/`continue`, so those
lexemes scan as `Identifier` tokens even though the `TokenType` enumeration
has `Break` and `Continue` kinds. -/
theorem break_continue_scan_as_identifiers :
    keywords.lookup "break" = none ∧
    keywords.lookup "continue" = none ∧
    (scanSource "break").Tokens.map Token.type_ = [.Identifier, .EOF] ∧
    (scanSource "continue").Tokens.map Token.type_ = [.Identifier, .EOF] ∧
    (scanSource "break").Tokens.map Token.Lexeme = ["break", ""] :=
  ⟨rfl, rfl, rfl, rfl, rfl⟩

/-- Counterexample to C5 as stated: a string opened on line 1 that runs
unterminated to line 2 is reported at line 2, and a comment opened on line
1 running to line 3 is reported at line 3 — not at the opener line 1. -/
theorem unterminated_string_error_line_is_final_line :
    (scanSource "\"a\nb").errors =
      [(2, "Unterminated string literal \x27\"a\nb\x27")] ∧
    (scanSource "/* x\n\ny").errors =
      [(3, "Unterminated multi-line comment \x27/* x\n\ny\x27")] ∧
    (2 : Nat) ≠ 1 ∧ (3 : Nat) ≠ 1 :=
  ⟨rfl, rfl, by decide, by decide⟩

/-- Counterexample to C3 as stated: calling a plain function whose body
ends in the expression statement `42;` yields `42`, not `nil` — the Go
`Call` returns the value of the last executed statement. -/
theorem plain_function_yields_last_value_not_nil :
    (Interpret 50 [] funBodyValueProgram).1 = .ok (some (.NumberV 42)) ∧
    Value.NumberV 42 ≠ Value.NilV :=
  ⟨rfl, fun h => Value.noConfusion h⟩

/-- Counterexample to C4 as stated: in `var a = 0; 1(a = 5);` the
non-callable callee raises the runtime error before the argument list is
evaluated, so the side effect `a = 5` never happens. -/
theorem uncallable_callee_skips_arguments :
    (Interpret 50 [] argSideEffectProgram).1 =
      .error (.RuntimeErrorE
        { Message := "Can only call functions and classes.", Line := 1 }) ∧
    ((Interpret 50 [] argSideEffectProgram).2.envGetD 0).Values.lookup "a" =
      some (.NumberV 0) ∧
    Value.NumberV 0 ≠ Value.NumberV 5 :=
  ⟨rfl, rfl, by intro h; cases h⟩

/-- C7: whenever the scanner, parser or resolver stage reported, `runFile`
exits with code 65, never invokes the interpreter, and produces no output. -/
theorem static_error_exits_65_without_interpreting (b : StageBehavior)
    (h : b.scanReports = true ∨ b.parseReports = true ∨ b.resolveReports = true) :
    (runFile b).exitCode = some 65 ∧
    (runFile b).interpreterInvoked = false ∧
    (runFile b).output = [] := by
  obtain ⟨s, p, r0, rt, out⟩ := b
  cases s <;> cases p <;> cases r0 <;> simp_all [runFile, run]

/-- Witness for C7 at a behaviour where only the resolver reports. -/
theorem static_error_exits_65_without_interpreting_witness :
    (runFile { scanReports := false, parseReports := false, resolveReports := true,
               runtimeFails := false, interpretOutput := ["3"] }).exitCode = some 65 ∧
    (runFile { scanReports := false, parseReports := false, resolveReports := true,
               runtimeFails := false, interpretOutput := ["3"] }).interpreterInvoked = false ∧
    (runFile { scanReports := false, parseReports := false, resolveReports := true,
               runtimeFails := false, interpretOutput := ["3"] }).output = [] :=
  static_error_exits_65_without_interpreting _ (Or.inr (Or.inr rfl))

theorem capLoop_keeps {α : Type} (args : List α) : ∀ p, (capLoop p args).2 = args := by
  induction args with
  | nil => intro p; rfl
  | cons a rest ih => intro p; simp [capLoop, ih]

theorem capLoop_errors {α : Type} (args : List α) :
    ∀ p, ((capLoop p args).1 = [] ↔ (args = [] ∨ p + args.length ≤ 255)) := by
  induction args with
  | nil => intro p; simp [capLoop]
  | cons a rest ih =>
    intro p
    simp only [capLoop, List.append_eq_nil, List.length_cons]
    constructor
    · rintro ⟨h1, h2⟩
      right
      have hp : ¬ (255 ≤ p) := by
        intro hc; simp [hc] at h1
      have := (ih (p + 1)).mp h2
      rcases this with rfl | h
      · simp only [List.length_nil]; omega
      · omega
    · rintro (h | h)
      · exact absurd h (by simp)
      · have hp : ¬ (255 ≤ p) := by omega
        refine ⟨by simp [hp], (ih (p + 1)).mpr ?_⟩
        right; omega

/-- C6: the argument loop keeps every argument while reporting — not
aborting — once the count passes 255: the parse result always carries all
arguments, the error list is empty exactly when at most 255 arguments are
present, a 255-argument call parses clean and a 256-argument call reports. -/
theorem argument_cap_255 :
    (∀ (args : List Unit), (parseCallArguments args).2 = args) ∧
    (∀ (args : List Unit), ((parseCallArguments args).1 = [] ↔ args.length ≤ 255)) ∧
    (parseCallArguments (List.replicate 255 ())).1 = [] ∧
    (parseCallArguments (List.replicate 256 ())).1 ≠ [] := by
  have he : ∀ (args : List Unit), ((parseCallArguments args).1 = [] ↔ args.length ≤ 255) := by
    intro a
    rw [parseCallArguments, capLoop_errors]
    constructor
    · rintro (rfl | h) <;> simp_all
    · intro h; right; omega
  refine ⟨fun a => capLoop_keeps a 0, he, ?_, ?_⟩
  · rw [he, List.length_replicate]
  · rw [Ne, he, List.length_replicate]
    omega

/-- Witness instantiating the universally quantified conjuncts of the
argument-cap theorem at a two-argument list. -/
theorem argument_cap_255_witness :
    (parseCallArguments [(), ()]).2 = [(), ()] ∧
    ((parseCallArguments [(), ()]).1 = [] ↔ ([(), ()] : List Unit).length ≤ 255) :=
  ⟨argument_cap_255.1 [(), ()], argument_cap_255.2.1 [(), ()]⟩

theorem envChain_ancestor {st : St} {e : Nat} {l : List Nat}
    (hc : EnvChain st e l) : ∀ d, st.ancestor e d = l[d]? := by
  induction hc with
  | last e h =>
    intro d
    cases d with
    | zero => simp [St.ancestor]
    | succ d => simp [St.ancestor, h]
  | cons e e2 l h _ ih =>
    intro d
    cases d with
    | zero => simp [St.ancestor]
    | succ d => simp [St.ancestor, h, ih d]

/-- C9: `ancestor` follows `Enclosing` pointers with no nil check, so a
resolver depth `d` is safe exactly when the chain from the current frame
has more than `d` links: within the chain `GetAt` returns the (possibly
absent) binding of that frame with no error, and past the chain it
dereferences a nil environment pointer. -/
theorem resolved_depth_lookup_safety (st : St) (e : Nat) (l : List Nat)
    (hc : EnvChain st e l) :
    (∀ d (h : d < l.length), st.ancestor e d = some (l.get ⟨d, h⟩)) ∧
    (∀ d, l.length ≤ d → st.ancestor e d = none) ∧
    (∀ d (h : d < l.length) (name : String),
       st.GetAt e d name = .ok ((st.envGetD (l.get ⟨d, h⟩)).Values.lookup name)) ∧
    (∀ d, l.length ≤ d → ∀ name : String,
       st.GetAt e d name = .error (.Panicked nilPanicMsg)) := by
  have ha := envChain_ancestor hc
  refine ⟨?_, ?_, ?_, ?_⟩
  · intro d h
    rw [ha d, List.getElem?_eq_getElem h]; rfl
  · intro d h
    rw [ha d, List.getElem?_eq_none h]
  · intro d h name
    rw [St.GetAt, ha d, List.getElem?_eq_getElem h]
    rfl
  · intro d h name
    rw [St.GetAt, ha d, List.getElem?_eq_none h]

/-- Witness for C9 at the two-frame chain state: in-chain lookups succeed
(also when the name is absent, returning `none` with no error), the
out-of-chain depth 2 dereferences nil. -/
theorem resolved_depth_lookup_safety_witness :
    chainWitnessState.ancestor 1 1 = some 0 ∧
    chainWitnessState.ancestor 1 2 = none ∧
    chainWitnessState.GetAt 1 1 "x" = .ok (some (.NumberV 1)) ∧
    chainWitnessState.GetAt 1 0 "x" = .ok none ∧
    chainWitnessState.GetAt 1 2 "x" = .error (.Panicked nilPanicMsg) := by
  have hc : EnvChain chainWitnessState 1 [1, 0] :=
    .cons 1 0 [0] rfl (.last 0 rfl)
  have h := resolved_depth_lookup_safety chainWitnessState 1 [1, 0] hc
  exact ⟨h.1 1 (by decide), h.2.1 2 (by decide),
         h.2.2.1 1 (by decide) "x", h.2.2.1 0 (by decide) "x",
         h.2.2.2 2 (by decide) "x"⟩
/-- C3 (amended): with the environment frame and the body run named
explicitly, a call of an initializer (`is_initializer` set) yields the
`this` bound in the function closure on normal completion, on any `return`,
and on any other error value raised by the body (the error is swallowed);
only a panic — and the embedding's fuel exhaustion — escapes. A call of a
plain function yields the `return` value when the body signals one,
otherwise the value of the last executed statement of the body (not
necessarily `nil`), and propagates every non-return error unchanged. The
first conjunct identifies the initializer's result with the closure
frame's `this` binding. -/
theorem function_call_result_spec (fuel : Nat) (f : LoxFunction)
    (args : List Value) (st : St) :
    (∀ st3 : St, initializerReturn f st3 =
       (.ok ((st3.envGetD f.Closure).Values.lookup "this"), st3)) ∧
    (∀ envId st1, st.newEnvironmentScope (some f.Closure) = (envId, st1) →
     ∀ r st2,
       executeBlock fuel f.Declaration.Body envId
           (defineParams st1 envId f.Declaration.Params args) = (r, st2) →
       (f.IsInitializer = true →
         (∀ v, r = .ok v →
            loxCall (fuel + 1) f args st = initializerReturn f st2) ∧
         (∀ e, r = .error e → (∀ m, e ≠ .Panicked m) → e ≠ .OutOfFuel →
            loxCall (fuel + 1) f args st = initializerReturn f st2) ∧
         (∀ m, r = .error (.Panicked m) →
            loxCall (fuel + 1) f args st = (.error (.Panicked m), st2)) ∧
         (r = .error .OutOfFuel →
            loxCall (fuel + 1) f args st = (.error .OutOfFuel, st2))) ∧
       (f.IsInitializer = false →
         (∀ v, r = .ok v → loxCall (fuel + 1) f args st = (.ok v, st2)) ∧
         (∀ d rv, r = .error (.ReturnErrorE d rv) →
            loxCall (fuel + 1) f args st = (.ok rv, st2)) ∧
         (∀ e, r = .error e → (∀ d rv, e ≠ .ReturnErrorE d rv) →
            loxCall (fuel + 1) f args st = (.error e, st2)))) := by
  constructor
  · intro st3
    rfl
  · intro envId st1 hEnv r st2 hEB
    constructor
    · intro hinit
      refine ⟨?_, ?_, ?_, ?_⟩
      · intro v hr
        subst hr
        simp only [loxCall, hEnv, hEB, hinit, if_true]
      · intro e hr hnp hnf
        subst hr
        cases e with
        | ReturnErrorE d rv => simp only [loxCall, hEnv, hEB, hinit, if_true]
        | RuntimeErrorE d => simp only [loxCall, hEnv, hEB, hinit, if_true]
        | BreakErrorE d => simp only [loxCall, hEnv, hEB, hinit, if_true]
        | ContinueErrorE d => simp only [loxCall, hEnv, hEB, hinit, if_true]
        | GoError m => simp only [loxCall, hEnv, hEB, hinit, if_true]
        | Panicked m => exact absurd rfl (hnp m)
        | OutOfFuel => exact absurd rfl hnf
      · intro m hr
        subst hr
        simp only [loxCall, hEnv, hEB]
      · intro hr
        subst hr
        simp only [loxCall, hEnv, hEB]
    · intro hinit
      refine ⟨?_, ?_, ?_⟩
      · intro v hr
        subst hr
        simp only [loxCall, hEnv, hEB, hinit, Bool.false_eq_true, if_false]
      · intro d rv hr
        subst hr
        simp only [loxCall, hEnv, hEB, hinit, Bool.false_eq_true, if_false]
      · intro e hr hne
        subst hr
        cases e with
        | ReturnErrorE d rv => exact absurd rfl (hne d rv)
        | RuntimeErrorE d =>
          simp only [loxCall, hEnv, hEB, hinit, Bool.false_eq_true, if_false]
        | BreakErrorE d =>
          simp only [loxCall, hEnv, hEB, hinit, Bool.false_eq_true, if_false]
        | ContinueErrorE d =>
          simp only [loxCall, hEnv, hEB, hinit, Bool.false_eq_true, if_false]
        | GoError m =>
          simp only [loxCall, hEnv, hEB, hinit, Bool.false_eq_true, if_false]
        | Panicked m => simp only [loxCall, hEnv, hEB]
        | OutOfFuel => simp only [loxCall, hEnv, hEB]

/-- Witness for C3: the initializer part at an empty-bodied `init` whose
closure binds `this` to instance 0 (the call yields that binding), and the
plain part at a function whose body is the expression statement `42;`. -/
theorem function_call_result_spec_witness :
    initializerReturn initWitnessFunction initWitnessState =
      (.ok ((initWitnessState.envGetD initWitnessFunction.Closure).Values.lookup
        "this"), initWitnessState) ∧
    loxCall 6 initWitnessFunction [] initWitnessState =
      initializerReturn initWitnessFunction
        (executeBlock 5 initWitnessFunction.Declaration.Body
          (initWitnessState.newEnvironmentScope (some initWitnessFunction.Closure)).1
          (defineParams
            (initWitnessState.newEnvironmentScope (some initWitnessFunction.Closure)).2
            (initWitnessState.newEnvironmentScope (some initWitnessFunction.Closure)).1
            initWitnessFunction.Declaration.Params [])).2 ∧
    loxCall 6 plainWitnessFunction [] initWitnessState =
      (.ok (some (.NumberV 42)),
       (executeBlock 5 plainWitnessFunction.Declaration.Body
          (initWitnessState.newEnvironmentScope (some plainWitnessFunction.Closure)).1
          (defineParams
            (initWitnessState.newEnvironmentScope (some plainWitnessFunction.Closure)).2
            (initWitnessState.newEnvironmentScope (some plainWitnessFunction.Closure)).1
            plainWitnessFunction.Declaration.Params [])).2) := by
  refine ⟨?_, ?_, ?_⟩
  · exact (function_call_result_spec 5 initWitnessFunction [] initWitnessState).1
      initWitnessState
  · exact ((((function_call_result_spec 5 initWitnessFunction [] initWitnessState).2
      _ _ rfl _ _ rfl).1 rfl).1) none rfl
  · exact ((((function_call_result_spec 5 plainWitnessFunction [] initWitnessState).2
      _ _ rfl _ _ rfl).2 rfl).1) (some (.NumberV 42)) rfl

/-- C4 (amended): for a call expression the interpreter first evaluates the
callee; a callee error propagates; a non-callable callee raises the
"Can only call functions and classes." error at once — before any argument
is evaluated; for a callable callee the arguments are then evaluated
left-to-right with the first error stopping the list, the count is checked
against the arity, and only then is the callable dispatched. -/
theorem call_evaluation_order (fuel : Nat) (callee : Expr) (paren : Token)
    (args : List Expr) (st : St) :
    (∀ e st1, evaluate fuel callee st = (.error e, st1) →
       evaluate (fuel + 1) (.Call callee paren args) st = (.error e, st1)) ∧
    (∀ v st1, evaluate fuel callee st = (.ok v, st1) →
       (∀ c, v ≠ .FunctionV c) → (∀ c, v ≠ .ClassV c) →
       evaluate (fuel + 1) (.Call callee paren args) st =
         (.error (.RuntimeErrorE
            { Message := "Can only call functions and classes.",
              Line := paren.Line }), st1)) ∧
    (∀ c st1, evaluate fuel callee st = (.ok (.FunctionV c), st1) →
       evaluate (fuel + 1) (.Call callee paren args) st =
         finishCall fuel (.inl c) paren args st1) ∧
    (∀ a rest e st1, evaluate fuel a st = (.error e, st1) →
       evalArgs (fuel + 1) (a :: rest) st = (.error e, st1)) ∧
    (∀ (callable : Sum CallableV Nat) (st1 : St) (vs : List Value) (st2 : St),
       evalArgs fuel args st1 = (.ok vs, st2) →
       (vs.length ≠ callableArity st2 callable →
          finishCall (fuel + 1) callable paren args st1 =
            (.error (.RuntimeErrorE
               { Message := "Expected " ++ toString (callableArity st2 callable) ++
                   " arguments but got " ++ toString vs.length ++ ".",
                 Line := paren.Line }), st2)) ∧
       (vs.length = callableArity st2 callable →
          finishCall (fuel + 1) callable paren args st1 =
            (match callableCall fuel callable vs st2 with
             | (.error e, st3) => (.error e, st3)
             | (.ok v, st3) =>
               (.ok (match v with | none => Value.NilV | some v2 => v2), st3)))) := by
  refine ⟨?_, ?_, ?_, ?_, ?_⟩
  · intro e st1 h
    simp only [evaluate, h]
  · intro v st1 h hf hc
    cases v with
    | FunctionV c => exact absurd rfl (hf c)
    | ClassV c => exact absurd rfl (hc c)
    | NilV => simp only [evaluate, h]
    | NumberV n => simp only [evaluate, h]
    | StringV s => simp only [evaluate, h]
    | BoolV b => simp only [evaluate, h]
    | InstanceV i => simp only [evaluate, h]
  · intro c st1 h
    simp only [evaluate, h]
  · intro a rest e st1 h
    simp only [evalArgs, h]
  · intro callable st1 vs st2 hargs
    constructor
    · intro hne
      simp only [finishCall, hargs]
      rw [if_pos hne]
    · intro heq
      simp only [finishCall, hargs]
      rw [if_neg (fun hcon => hcon heq)]

/-- Witness for C4: the callee `1` of `1(a = 5)` is not callable, so
evaluation stops with the call error in the unchanged initial state. -/
theorem call_evaluation_order_witness :
    evaluate 2 (.Call (numLit 1) parenTok [.Assign 1 (idTok "a") (numLit 5)])
        NewInterpreterState =
      (.error (.RuntimeErrorE {
        Message := "Can only call functions and classes.",
        Line := 1 }), NewInterpreterState) :=
  (call_evaluation_order 1 (numLit 1) parenTok [.Assign 1 (idTok "a") (numLit 5)]
      NewInterpreterState).2.1 (.NumberV 1) NewInterpreterState rfl
    (fun _ h => Value.noConfusion h) (fun _ h => Value.noConfusion h)

end Golox

